import Mathlib

/-!
Verification of the workout validator in `src/utils/validate_workout.py`
(repository akarl16/cycling-workouts).

The validator walks a decoded JSON tree (Python dicts/lists/scalars) and
accumulates path-qualified error strings.  We shallowly embed the decoded
JSON values as the inductive type `Value`, Python dicts as association
lists, and each Python function of the source file as a Lean function of
the same name producing the same error strings in the same order.

Modelling notes on Python semantics, used throughout:
* `isinstance(x, int)` is true for Python booleans as well (`bool` is a
  subclass of `int`, with `True == 1` and `False == 0`); this is captured
  by `Value.pyInt?`.
* Every `==` comparison performed by the source compares a value against a
  string literal (mode, intervalType, theme, durationRange, sequence-item
  type); for such comparisons Python equality holds iff the value is that
  very string, captured by `Value.eqStr`.
* f-string interpolation `f"{x}"` uses `str(x)`; `str` of a list/dict
  renders elements with `repr`.  This rendering is `Value.pyStr` /
  `pyRepr`.  (Python's escaping of quotes inside `repr` of exotic strings
  is not reproduced, and JSON floats are outside the model: no claim
  depends on either.)
* Numeric JSON values are modelled as integers.
-/

/-- A decoded JSON value as produced by Python's `json.load`. -/
inductive Value where
  | null
  | bool (b : Bool)
  | int (n : Int)
  | str (s : String)
  | list (items : List Value)
  | obj (fields : List (String × Value))

/-- A Python dict (decoded JSON object): an association list of fields. -/
def Dict := List (String × Value)

/-- Python `d[k]` / `d.get(k)` lookup (first matching key). -/
def getEntry : Dict → String → Option Value
  | [], _ => none
  | (k', v) :: rest, k => if k' == k then some v else getEntry rest k

/-- Python `k in d`. -/
def hasKey (d : Dict) (k : String) : Bool := (getEntry d k).isSome

/-- Python `d.get(k)` (default `None`) and `d[k]` at places where the
source already checked the key is present. -/
def getD (d : Dict) (k : String) : Value := (getEntry d k).getD .null

/-- Python `isinstance(v, int)` together with the numeric value: booleans
are ints in Python (`True == 1`, `False == 0`). -/
def Value.pyInt? : Value → Option Int
  | .int n => some n
  | .bool b => some (if b then 1 else 0)
  | _ => none

/-- Python `v == s` for a string literal `s`: true iff `v` is exactly that
string (no cross-type equality involving strings exists in Python). -/
def Value.eqStr (v : Value) (s : String) : Bool :=
  match v with
  | .str t => t == s
  | _ => false

/-- Python `type(v).__name__`. -/
def Value.pyTypeName : Value → String
  | .null => "NoneType"
  | .bool _ => "bool"
  | .int _ => "int"
  | .str _ => "str"
  | .list _ => "list"
  | .obj _ => "dict"

mutual

/-- Python `repr(v)`. -/
def pyRepr : Value → String
  | .null => "None"
  | .bool b => if b then "True" else "False"
  | .int n => toString n
  | .str s => "'" ++ s ++ "'"
  | .list xs => "[" ++ String.intercalate ", " (pyReprList xs) ++ "]"
  | .obj fs => "\x7b" ++ String.intercalate ", " (pyReprFields fs) ++ "\x7d"
termination_by structural v => v

/-- `repr` of the elements of a Python list. -/
def pyReprList : List Value → List String
  | [] => []
  | x :: rest => pyRepr x :: pyReprList rest
termination_by structural l => l

/-- `repr` of the `key: value` entries of a Python dict. -/
def pyReprFields : List (String × Value) → List String
  | [] => []
  | (k, v) :: rest => ("'" ++ k ++ "': " ++ pyRepr v) :: pyReprFields rest
termination_by structural l => l

end

/-- Python `str(v)`: like `repr` except that a top-level string renders
without quotes. -/
def Value.pyStr : Value → String
  | .str s => s
  | v => pyRepr v

/-! ### The power-zone regular expression

The source compiles `r'^(?:[Zz](?:one)?\s*)?[1-7][+-]?$'` and tests it
with `re.match`.  We compile that regex by hand into a scanner over
`List Char`:
* `[Zz]` matches exactly the two characters `Z` and `z` (the literal
  `one` after it is matched case-sensitively);
* `\s` matches Python's (Unicode) whitespace class;
* `\s*` is greedy, which is complete here because whitespace and `[1-7]`
  are disjoint;
* Python's `$` matches at the end of the string or just before a single
  trailing newline, handled by `endOk`. -/

/-- The characters matched by Python's `\s` in a unicode (str) pattern. -/
def pySpaceChars : List Char :=
  [' ', '\t', '\n', '\r', '\x0b', '\x0c',
   '\x1c', '\x1d', '\x1e', '\x1f', '\x85', '\xa0',
   ' ', ' ', ' ', ' ', ' ', ' ',
   ' ', ' ', ' ', ' ', ' ', ' ',
   '\u2028', '\u2029', ' ', ' ', '　']

/-- Python's `\s`. -/
def isPySpace (c : Char) : Bool := pySpaceChars.contains c

theorem isPySpace_iff_mem (c : Char) : isPySpace c = true ↔ c ∈ pySpaceChars := by
  simp [isPySpace, List.contains]

/-- `[1-7]`. -/
def isZoneDigit (c : Char) : Bool := '1' ≤ c && c ≤ '7'

/-- Python's `$`: end of input, or a single trailing newline. -/
def endOk (l : List Char) : Bool := l == [] || l == ['\n']

/-- The remainder after `[1-7]`: optional `[+-]`, then `$`. -/
def afterDigit : List Char → Bool
  | [] => true
  | c :: rest => if c = '+' || c = '-' then endOk rest else endOk (c :: rest)

/-- `[1-7][+-]?$`. -/
def matchDigit : List Char → Bool
  | [] => false
  | c :: rest => isZoneDigit c && afterDigit rest

/-- The part after `[Zz]`: `(?:one)?\s*` followed by `[1-7][+-]?$`. -/
def matchAfterZ (cs : List Char) : Bool :=
  (match cs with
   | 'o' :: 'n' :: 'e' :: rest => matchDigit (List.dropWhile isPySpace rest)
   | _ => false) ||
  matchDigit (List.dropWhile isPySpace cs)

/-- The whole pattern `^(?:[Zz](?:one)?\s*)?[1-7][+-]?$` under `re.match`. -/
def pyZoneMatch (cs : List Char) : Bool :=
  (match cs with
   | c :: rest => if c = 'Z' || c = 'z' then matchAfterZ rest else false
   | [] => false) ||
  matchDigit cs

/-- `validate_power_zone` (source lines 16-30). -/
def validate_power_zone (zone : Value) : Bool × String :=
  match zone.pyInt? with
  | some n =>
      if 1 ≤ n ∧ n ≤ 7 then (true, "")
      else (false, "Power zone must be 1-7, got " ++ zone.pyStr)
  | none =>
      match zone with
      | .str s =>
          if pyZoneMatch s.data then (true, "")
          else (false, "Invalid power zone format: '" ++ s ++ "'")
      | _ => (false, "Power zone must be integer or string, got " ++ zone.pyTypeName)

/-! ### `validate_interval` (source lines 33-114)

The source appends errors to one list in a fixed order; we embed each
append site as a list segment and concatenate the segments in the same
order.  Sub-intervals reached through `sequence`/`intervals`/`blocks`
arrays are passed by the source to parameters declared `Dict[str, Any]`;
a non-mapping element there would raise a `TypeError` in Python (no error
list is produced at all).  Such elements are outside the schema and every
claim; they are modelled by `Value.asObjD` as empty mappings. -/

/-- View of a value as the `Dict[str, Any]` the source's signatures
declare (see section note). -/
def Value.asObjD : Value → Dict
  | .obj fs => fs
  | _ => []

/-- Source lines 38-41: required `id`/`name`/`duration`. -/
def reqSeg (d : Dict) (path : String) : List String :=
  ["id", "name", "duration"].flatMap fun f =>
    if hasKey d f then [] else [path ++ ": Missing required field '" ++ f ++ "'"]

/-- Source lines 43-50: exactly one of `powerZone`/`powerZoneRange`. -/
def exclSeg (d : Dict) (path : String) : List String :=
  if !hasKey d "powerZone" && !hasKey d "powerZoneRange" then
    [path ++ ": Must have either 'powerZone' or 'powerZoneRange'"]
  else if hasKey d "powerZone" && hasKey d "powerZoneRange" then
    [path ++ ": Cannot have both 'powerZone' and 'powerZoneRange'"]
  else []

/-- Source lines 52-56: value of `powerZone` if present. -/
def pzSeg (d : Dict) (path : String) : List String :=
  if hasKey d "powerZone" then
    if (validate_power_zone (getD d "powerZone")).1 then []
    else [path ++ ": " ++ (validate_power_zone (getD d "powerZone")).2]
  else []

/-- Source lines 60-76 (and the identical lines 202-218 and 304-320):
value of a `powerZoneRange` field. -/
def rangeFieldErrors (path : String) (pzr : Value) : List String :=
  match pzr with
  | .obj fs =>
      (if hasKey fs "start" then
        if (validate_power_zone (getD fs "start")).1 then []
        else [path ++ ".powerZoneRange.start: " ++ (validate_power_zone (getD fs "start")).2]
      else [path ++ ": powerZoneRange missing 'start'"]) ++
      (if hasKey fs "end" then
        if (validate_power_zone (getD fs "end")).1 then []
        else [path ++ ".powerZoneRange.end: " ++ (validate_power_zone (getD fs "end")).2]
      else [path ++ ": powerZoneRange missing 'end'"])
  | _ => [path ++ ": powerZoneRange must be an object"]

/-- Source lines 58-76: `powerZoneRange` if present. -/
def rangeSeg (d : Dict) (path : String) : List String :=
  if hasKey d "powerZoneRange" then rangeFieldErrors path (getD d "powerZoneRange") else []

/-- Source lines 79-81 (`duration`) and 429-431 (`totalDuration`):
`isinstance(x, int) and x >= 1`. -/
def durationOK (v : Value) : Bool :=
  match v.pyInt? with
  | some n => decide (1 ≤ n)
  | none => false

/-- Source lines 78-81: `duration` if present. -/
def durSeg (d : Dict) (path : String) : List String :=
  if hasKey d "duration" then
    if durationOK (getD d "duration") then []
    else [path ++ ": duration must be a positive integer"]
  else []

/-- The cadence bound check `isinstance(c, int) and 40 <= c <= 150`. -/
def cadenceOK (v : Value) : Bool :=
  match v.pyInt? with
  | some n => decide (40 ≤ n ∧ n ≤ 150)
  | none => false

/-- Source lines 83-87: `cadence` if present. -/
def cadSeg (d : Dict) (path : String) : List String :=
  if hasKey d "cadence" then
    if cadenceOK (getD d "cadence") then []
    else [path ++ ": cadence must be an integer between 40 and 150"]
  else []

/-- Source lines 91-107: value of the `alternating` field of an interval.
Note: unlike the work-block variant below, this one checks only
`powerZoneA`/`powerZoneB`, not `cadenceA`/`cadenceB`. -/
def altFieldErrorsInterval (path : String) (alt : Value) : List String :=
  match alt with
  | .obj fs =>
      (if hasKey fs "powerZoneA" then
        if (validate_power_zone (getD fs "powerZoneA")).1 then []
        else [path ++ ".alternating.powerZoneA: " ++ (validate_power_zone (getD fs "powerZoneA")).2]
      else [path ++ ".alternating: missing 'powerZoneA'"]) ++
      (if hasKey fs "powerZoneB" then
        if (validate_power_zone (getD fs "powerZoneB")).1 then []
        else [path ++ ".alternating.powerZoneB: " ++ (validate_power_zone (getD fs "powerZoneB")).2]
      else [path ++ ".alternating: missing 'powerZoneB'"])
  | _ => [path ++ ": alternating must be an object"]

/-- Source lines 89-107: `alternating` if present. -/
def altSegInterval (d : Dict) (path : String) : List String :=
  if hasKey d "alternating" then altFieldErrorsInterval path (getD d "alternating") else []

/-- Source lines 109-112: `notes` if present. -/
def notesSeg (d : Dict) (path : String) : List String :=
  if hasKey d "notes" then
    match getD d "notes" with
    | .str _ => []
    | _ => [path ++ ": notes must be a string"]
  else []

/-- `validate_interval` (source lines 33-114). -/
def validate_interval (d : Dict) (path : String) : List String :=
  reqSeg d path ++ exclSeg d path ++ pzSeg d path ++ rangeSeg d path ++
  durSeg d path ++ cadSeg d path ++ altSegInterval d path ++ notesSeg d path

/-- `validate_block` (source lines 117-146). -/
def validate_block (d : Dict) (path : String) : List String :=
  (["id", "name", "repetitions", "intervals"].flatMap fun f =>
    if hasKey d f then [] else [path ++ ": Missing required field '" ++ f ++ "'"]) ++
  (if hasKey d "repetitions" then
    if durationOK (getD d "repetitions") then []
    else [path ++ ": repetitions must be a positive integer"]
  else []) ++
  (if hasKey d "intervals" then
    match getD d "intervals" with
    | .list xs =>
        if xs.isEmpty then [path ++ ": intervals array cannot be empty"]
        else xs.enum.flatMap fun p =>
          validate_interval p.2.asObjD (path ++ ".intervals[" ++ toString p.1 ++ "]")
    | _ => [path ++ ": intervals must be an array"]
  else [])

/-- `validate_sequence_item` (source lines 149-166). -/
def validate_sequence_item (item : Dict) (idx : Nat) : List String :=
  if !hasKey item "type" then
    ["sequence[" ++ toString idx ++ "]: Missing 'type' field"]
  else if (getD item "type").eqStr "interval" then
    validate_interval item ("sequence[" ++ toString idx ++ "]")
  else if (getD item "type").eqStr "block" then
    validate_block item ("sequence[" ++ toString idx ++ "]")
  else
    ["sequence[" ++ toString idx ++ "]: type must be 'interval' or 'block', got '" ++
      (getD item "type").pyStr ++ "'"]

/-! ### Melodic-roulette validators (source lines 169-371) -/

/-- Source lines 177-180: required non-empty `name`. -/
def nameSegW (d : Dict) (path : String) : List String :=
  if !hasKey d "name" then [path ++ ": Missing required field 'name'"]
  else
    match getD d "name" with
    | .str s => if s.length == 0 then [path ++ ": name must be a non-empty string"] else []
    | _ => [path ++ ": name must be a non-empty string"]

/-- Source lines 182-192: the count of `powerZone`/`powerZoneRange`/`alternating`. -/
def exclCount (d : Dict) : Nat :=
  (if hasKey d "powerZone" then 1 else 0) +
  (if hasKey d "powerZoneRange" then 1 else 0) +
  (if hasKey d "alternating" then 1 else 0)

/-- Source lines 189-192: exactly one of the three variants. -/
def exclSegW (d : Dict) (path : String) : List String :=
  if exclCount d == 0 then
    [path ++ ": Must have either 'powerZone', 'powerZoneRange', or 'alternating'"]
  else if 1 < exclCount d then
    [path ++ ": Cannot have more than one of 'powerZone', 'powerZoneRange', or 'alternating'"]
  else []

/-- Source lines 194-198: value of `powerZone` if present (note the
`.powerZone` path suffix, unlike `validate_interval`). -/
def pzSegW (d : Dict) (path : String) : List String :=
  if hasKey d "powerZone" then
    if (validate_power_zone (getD d "powerZone")).1 then []
    else [path ++ ".powerZone: " ++ (validate_power_zone (getD d "powerZone")).2]
  else []

/-- Source lines 220-249: value of the `alternating` field of a work-block
definition: `powerZoneA`/`powerZoneB` plus the optional cadences. -/
def altFieldErrorsW (path : String) (alt : Value) : List String :=
  match alt with
  | .obj fs =>
      (if hasKey fs "powerZoneA" then
        if (validate_power_zone (getD fs "powerZoneA")).1 then []
        else [path ++ ".alternating.powerZoneA: " ++ (validate_power_zone (getD fs "powerZoneA")).2]
      else [path ++ ".alternating: missing 'powerZoneA'"]) ++
      (if hasKey fs "powerZoneB" then
        if (validate_power_zone (getD fs "powerZoneB")).1 then []
        else [path ++ ".alternating.powerZoneB: " ++ (validate_power_zone (getD fs "powerZoneB")).2]
      else [path ++ ".alternating: missing 'powerZoneB'"]) ++
      (if hasKey fs "cadenceA" then
        if cadenceOK (getD fs "cadenceA") then []
        else [path ++ ".alternating.cadenceA: must be an integer between 40 and 150"]
      else []) ++
      (if hasKey fs "cadenceB" then
        if cadenceOK (getD fs "cadenceB") then []
        else [path ++ ".alternating.cadenceB: must be an integer between 40 and 150"]
      else [])
  | _ => [path ++ ": alternating must be an object"]

/-- Source lines 220-249: `alternating` if present. -/
def altSegW (d : Dict) (path : String) : List String :=
  if hasKey d "alternating" then altFieldErrorsW path (getD d "alternating") else []

/-- Source lines 251-254: `cadence` if present. -/
def cadSegW (d : Dict) (path : String) : List String :=
  if hasKey d "cadence" then
    if cadenceOK (getD d "cadence") then []
    else [path ++ ": cadence must be an integer between 40 and 150"]
  else []

/-- `validate_work_block_definition` (source lines 169-256). -/
def validate_work_block_definition (defn : Value) (path : String) : List String :=
  match defn with
  | .obj d =>
      nameSegW d path ++ exclSegW d path ++ pzSegW d path ++
      (if hasKey d "powerZoneRange" then rangeFieldErrors path (getD d "powerZoneRange") else []) ++
      altSegW d path ++ cadSegW d path
  | _ => [path ++ ": Work block definition must be an object"]

/-- Source lines 267-268: required `id` of a slot. -/
def idSegS (d : Dict) (path : String) : List String :=
  if !hasKey d "id" then [path ++ ": Missing required field 'id'"] else []

/-- Source lines 270-273: `intervalType` required, `work` or `recovery`. -/
def typeSegS (d : Dict) (path : String) : List String :=
  if !hasKey d "intervalType" then [path ++ ": Missing required field 'intervalType'"]
  else if !((getD d "intervalType").eqStr "work" || (getD d "intervalType").eqStr "recovery") then
    [path ++ ": intervalType must be 'work' or 'recovery', got '" ++ (getD d "intervalType").pyStr ++ "'"]
  else []

/-- Source lines 275-278: `playlistId` required non-empty string. -/
def playlistSegS (d : Dict) (path : String) : List String :=
  if !hasKey d "playlistId" then [path ++ ": Missing required field 'playlistId'"]
  else
    match getD d "playlistId" with
    | .str s => if s.length == 0 then [path ++ ": playlistId must be a non-empty string"] else []
    | _ => [path ++ ": playlistId must be a non-empty string"]

/-- Source lines 280-283: optional `durationRange`. -/
def durRangeSegS (d : Dict) (path : String) : List String :=
  if hasKey d "durationRange" then
    if ["short", "medium", "long"].any (fun s => (getD d "durationRange").eqStr s) then []
    else [path ++ ": durationRange must be one of " ++
           Value.pyStr (.list [.str "short", .str "medium", .str "long"]) ++
           ", got '" ++ (getD d "durationRange").pyStr ++ "'"]
  else []

/-- Source lines 289-290: `powerZone`/`powerZoneRange` mutually exclusive. -/
def bothSegS (d : Dict) (path : String) : List String :=
  if hasKey d "powerZone" && hasKey d "powerZoneRange" then
    [path ++ ": Cannot have both 'powerZone' and 'powerZoneRange'"]
  else []

/-- Source lines 292-298: `powerZone`: forbidden for work slots, and value
validated in any case. -/
def pzSegS (d : Dict) (path : String) : List String :=
  if hasKey d "powerZone" then
    (if (getD d "intervalType").eqStr "work" then
      [path ++ ": powerZone not allowed for work intervals (use workBlockDefinitions instead)"]
    else []) ++
    (if (validate_power_zone (getD d "powerZone")).1 then []
     else [path ++ ".powerZone: " ++ (validate_power_zone (getD d "powerZone")).2])
  else []

/-- Source lines 300-320: `powerZoneRange`: forbidden for work slots, and
value validated in any case. -/
def rangeSegS (d : Dict) (path : String) : List String :=
  if hasKey d "powerZoneRange" then
    (if (getD d "intervalType").eqStr "work" then
      [path ++ ": powerZoneRange not allowed for work intervals (use workBlockDefinitions instead)"]
    else []) ++
    rangeFieldErrors path (getD d "powerZoneRange")
  else []

/-- Source lines 322-328: `cadence`: forbidden for work slots, and value
validated in any case. -/
def cadSegS (d : Dict) (path : String) : List String :=
  if hasKey d "cadence" then
    (if (getD d "intervalType").eqStr "work" then
      [path ++ ": cadence not allowed for work intervals (use workBlockDefinitions instead)"]
    else []) ++
    (if cadenceOK (getD d "cadence") then []
     else [path ++ ": cadence must be an integer between 40 and 150"])
  else []

/-- `validate_roulette_slot` (source lines 259-330). -/
def validate_roulette_slot (slot : Value) (path : String) : List String :=
  match slot with
  | .obj d =>
      idSegS d path ++ typeSegS d path ++ playlistSegS d path ++ durRangeSegS d path ++
      bothSegS d path ++ pzSegS d path ++ rangeSegS d path ++ cadSegS d path
  | _ => [path ++ ": Slot must be an object"]

/-- The eight recognized themes (source lines 366-367 and 435-436). -/
def validThemes : List String :=
  ["default", "halloween", "christmas", "wintry", "valentines", "holyhill", "criterium", "custom"]

/-- Source lines 364-369 and 433-438: optional `theme`. -/
def themeSeg (w : Dict) : List String :=
  if hasKey w "theme" then
    if validThemes.any (fun s => (getD w "theme").eqStr s) then []
    else ["theme must be one of " ++ Value.pyStr (.list (validThemes.map .str)) ++
          ", got '" ++ (getD w "theme").pyStr ++ "'"]
  else []

/-- Source lines 340-351: the `workBlockDefinitions` array. -/
def wbdSeg (w : Dict) : List String :=
  if !hasKey w "workBlockDefinitions" then ["Missing required field: 'workBlockDefinitions'"]
  else
    match getD w "workBlockDefinitions" with
    | .list xs =>
        if xs.isEmpty then ["'workBlockDefinitions' must have at least one definition"]
        else xs.enum.flatMap fun p =>
          validate_work_block_definition p.2 ("workBlockDefinitions[" ++ toString p.1 ++ "]")
    | _ => ["'workBlockDefinitions' must be an array"]

/-- Source lines 353-362: the `slots` array. -/
def slotsSeg (w : Dict) : List String :=
  if !hasKey w "slots" then ["Missing required field: 'slots'"]
  else
    match getD w "slots" with
    | .list xs =>
        if xs.isEmpty then ["'slots' must have at least one slot"]
        else xs.enum.flatMap fun p =>
          validate_roulette_slot p.2 ("slots[" ++ toString p.1 ++ "]")
    | _ => ["'slots' must be an array"]

/-- `validate_melodic_roulette` (source lines 333-371). -/
def validate_melodic_roulette (w : Dict) : List String :=
  (if !(getD w "mode").eqStr "melodic-roulette" then ["mode must be 'melodic-roulette'"] else []) ++
  wbdSeg w ++ slotsSeg w ++ themeSeg w

/-! ### `validate_workout` (source lines 374-440) -/

/-- Source lines 383-387: required `id`/`name`. -/
def reqSegTop (w : Dict) : List String :=
  ["id", "name"].flatMap fun f =>
    if hasKey w f then [] else ["Missing required field: '" ++ f ++ "'"]

/-- Source lines 394-438: the standard-mode checks. -/
def stdErrs (w : Dict) : List String :=
  (if !hasKey w "intervals" && !hasKey w "sequence" then
    ["Workout must have either 'intervals' or 'sequence' array"]
  else []) ++
  (if hasKey w "sequence" then
    match getD w "sequence" with
    | .list xs => xs.enum.flatMap fun p => validate_sequence_item p.2.asObjD p.1
    | _ => ["'sequence' must be an array"]
  else []) ++
  (if hasKey w "intervals" then
    match getD w "intervals" with
    | .list xs =>
        xs.enum.flatMap fun p => validate_interval p.2.asObjD ("intervals[" ++ toString p.1 ++ "]")
    | _ => ["'intervals' must be an array"]
  else []) ++
  (if hasKey w "blocks" then
    match getD w "blocks" with
    | .list xs =>
        xs.enum.flatMap fun p => validate_block p.2.asObjD ("blocks[" ++ toString p.1 ++ "]")
    | _ => ["'blocks' must be an array"]
  else []) ++
  (if hasKey w "totalDuration" then
    if durationOK (getD w "totalDuration") then []
    else ["totalDuration must be a positive integer"]
  else []) ++
  themeSeg w

/-- `validate_workout` (source lines 374-440). -/
def validate_workout (w : Dict) : Bool × List String :=
  if (getD w "mode").eqStr "melodic-roulette" then
    let errors := reqSegTop w ++ validate_melodic_roulette w
    (errors.isEmpty, errors)
  else
    let errors := reqSegTop w ++ stdErrs w
    (errors.isEmpty, errors)

/-! ### String infrastructure

The error lists mix fixed strings with strings of the form
`path ++ literal ++ interpolated`.  The lemmas below let us compare such
strings: two strings that extend literals neither of which is a prefix of
the other are distinct, whatever the extensions. -/

theorem String.data_app (a b : String) : (a ++ b).data = a.data ++ b.data := rfl

theorem String.eq_of_data_eq {a b : String} (h : a.data = b.data) : a = b := by
  cases a; cases b; exact congrArg String.mk h

theorem app_cancel {p a b : String} (h : p ++ a = p ++ b) : a = b := by
  apply String.eq_of_data_eq
  have hd : p.data ++ a.data = p.data ++ b.data := by
    rw [← String.data_app, ← String.data_app, h]
  exact List.append_cancel_left hd

theorem app_ne_app {a b : String} (h1 : ¬ a.data <+: b.data) (h2 : ¬ b.data <+: a.data)
    (u v : String) : a ++ u ≠ b ++ v := by
  intro he
  have hd : a.data ++ u.data = b.data ++ v.data := by
    rw [← String.data_app, ← String.data_app, he]
  rcases List.append_eq_append_iff.1 hd with ⟨t, ht, _⟩ | ⟨t, ht, _⟩
  · exact h1 ⟨t, ht.symm⟩
  · exact h2 ⟨t, ht.symm⟩

theorem app_empty (s : String) : s ++ "" = s := by
  apply String.eq_of_data_eq
  rw [String.data_app]
  exact List.append_nil _

theorem app_ne_lit {a b : String} (h1 : ¬ a.data <+: b.data) (h2 : ¬ b.data <+: a.data)
    (u : String) : a ++ u ≠ b := by
  intro he
  exact app_ne_app h1 h2 u "" (by rw [app_empty, he])

theorem lit_ne_app {a b : String} (h1 : ¬ a.data <+: b.data) (h2 : ¬ b.data <+: a.data)
    (u : String) : a ≠ b ++ u := fun he => app_ne_lit h2 h1 u he.symm

theorem lit_ne_lit {a b : String} (h1 : ¬ a.data <+: b.data) : a ≠ b := by
  intro he; exact h1 (he ▸ List.prefix_refl _)

/-- `path ++ (L ++ w) ≠ path ++ T` whenever the literals `L` and `T`
diverge before either ends. -/
theorem path_app_ne {L T : String} (h1 : ¬ L.data <+: T.data) (h2 : ¬ T.data <+: L.data)
    (path w : String) : path ++ (L ++ w) ≠ path ++ T := by
  intro he
  exact app_ne_lit h1 h2 w (app_cancel he)

/-- `path ++ L ≠ path ++ T` for diverging literals. -/
theorem path_lit_ne {L T : String} (h1 : ¬ L.data <+: T.data)
    (path : String) : path ++ L ≠ path ++ T := by
  intro he
  exact lit_ne_lit h1 (app_cancel he)

theorem mem_ite_single {c : Prop} [Decidable c] {e x : String}
    (h : e ∈ if c then [x] else ([] : List String)) : c ∧ e = x := by
  split at h
  · next hc => exact ⟨hc, by simpa using h⟩
  · simp at h

theorem mem_ite_nil_right {c : Prop} [Decidable c] {e : String} {l : List String}
    (h : e ∈ if c then l else ([] : List String)) : c ∧ e ∈ l := by
  split at h
  · next hc => exact ⟨hc, h⟩
  · simp at h

theorem app_assoc (a b c : String) : a ++ b ++ c = a ++ (b ++ c) := by
  apply String.eq_of_data_eq
  simp only [String.data_app]
  exact List.append_assoc _ _ _

theorem mem_ite_cases {c : Prop} [Decidable c] {e : String} {l₁ l₂ : List String}
    (h : e ∈ if c then l₁ else l₂) : (c ∧ e ∈ l₁) ∨ (¬ c ∧ e ∈ l₂) := by
  split at h
  · exact Or.inl ⟨by assumption, h⟩
  · exact Or.inr ⟨by assumption, h⟩

/-! ### Shapes of the error strings each segment can emit -/

/-- Merging adjacent string literals under a path prefix. -/
theorem lit_merge {a b c : String} (h : a ++ b = c) (path u : String) :
    path ++ a ++ (b ++ u) = path ++ (c ++ u) := by
  rw [app_assoc, ← app_assoc a b u, h]

theorem zoneMsg_shape (v : Value) (h : (validate_power_zone v).1 = false) :
    ∃ u, (validate_power_zone v).2 = "Power zone must be 1-7, got " ++ u ∨
         (validate_power_zone v).2 = "Invalid power zone format: '" ++ u ∨
         (validate_power_zone v).2 = "Power zone must be integer or string, got " ++ u := by
  match v with
  | .int n =>
      refine ⟨(Value.int n).pyStr, Or.inl ?_⟩
      by_cases hn : 1 ≤ n ∧ n ≤ 7
      · exact absurd h (by simp [validate_power_zone, Value.pyInt?, hn])
      · simp [validate_power_zone, Value.pyInt?, hn]
  | .bool true => exact absurd h (by decide)
  | .bool false => exact ⟨(Value.bool false).pyStr, Or.inl (by decide)⟩
  | .str s =>
      by_cases hm : pyZoneMatch s.data
      · exact absurd h (by simp [validate_power_zone, Value.pyInt?, hm])
      · refine ⟨s ++ "'", Or.inr (Or.inl ?_)⟩
        simp only [validate_power_zone, Value.pyInt?, hm, Bool.false_eq_true, if_false]
        exact app_assoc _ _ _
  | .null => exact ⟨Value.null.pyTypeName, Or.inr (Or.inr (by decide))⟩
  | .list xs => exact ⟨(Value.list xs).pyTypeName, Or.inr (Or.inr rfl)⟩
  | .obj fs => exact ⟨(Value.obj fs).pyTypeName, Or.inr (Or.inr rfl)⟩

theorem mem_reqSeg {e : String} {d : Dict} {path : String} (h : e ∈ reqSeg d path) :
    ∃ u, e = path ++ (": Missing required field '" ++ u) := by
  unfold reqSeg at h
  rw [List.mem_flatMap] at h
  obtain ⟨f, _, hf⟩ := h
  rcases mem_ite_cases hf with ⟨_, h⟩ | ⟨_, h⟩
  · simp at h
  · simp at h
    exact ⟨f ++ "'", by rw [h, app_assoc, app_assoc]⟩

theorem mem_exclSeg {e : String} {d : Dict} {path : String} (h : e ∈ exclSeg d path) :
    e = path ++ ": Must have either 'powerZone' or 'powerZoneRange'" ∨
    e = path ++ ": Cannot have both 'powerZone' and 'powerZoneRange'" := by
  unfold exclSeg at h
  rcases mem_ite_cases h with ⟨_, h⟩ | ⟨_, h⟩
  · exact Or.inl (by simpa using h)
  · rcases mem_ite_cases h with ⟨_, h⟩ | ⟨_, h⟩
    · exact Or.inr (by simpa using h)
    · simp at h

theorem mem_pzSeg {e : String} {d : Dict} {path : String} (h : e ∈ pzSeg d path) :
    ∃ u, e = path ++ (": Power zone must be 1-7, got " ++ u) ∨
         e = path ++ (": Invalid power zone format: '" ++ u) ∨
         e = path ++ (": Power zone must be integer or string, got " ++ u) := by
  unfold pzSeg at h
  rcases mem_ite_cases h with ⟨_, h⟩ | ⟨_, h⟩
  · rcases mem_ite_cases h with ⟨_, h⟩ | ⟨hval, h⟩
    · simp at h
    · simp only [List.mem_singleton] at h
      obtain ⟨u, hu | hu | hu⟩ := zoneMsg_shape _ (by simpa using hval)
      · exact ⟨u, Or.inl (by rw [h, hu]; exact lit_merge (by decide) path u)⟩
      · exact ⟨u, Or.inr (Or.inl (by rw [h, hu]; exact lit_merge (by decide) path u))⟩
      · exact ⟨u, Or.inr (Or.inr (by rw [h, hu]; exact lit_merge (by decide) path u))⟩
  · simp at h

theorem mem_rangeFieldErrors {e : String} {path : String} {v : Value}
    (h : e ∈ rangeFieldErrors path v) :
    e = path ++ ": powerZoneRange must be an object" ∨
    e = path ++ ": powerZoneRange missing 'start'" ∨
    e = path ++ ": powerZoneRange missing 'end'" ∨
    (∃ u, e = path ++ (".powerZoneRange.start: " ++ u)) ∨
    (∃ u, e = path ++ (".powerZoneRange.end: " ++ u)) := by
  unfold rangeFieldErrors at h
  match v with
  | .obj fs =>
      rw [List.mem_append] at h
      rcases h with h | h
      · rcases mem_ite_cases h with ⟨_, h⟩ | ⟨_, h⟩
        · rcases mem_ite_cases h with ⟨_, h⟩ | ⟨_, h⟩
          · simp at h
          · simp only [List.mem_singleton] at h
            exact Or.inr (Or.inr (Or.inr (Or.inl ⟨_, by rw [h, app_assoc]⟩)))
        · exact Or.inr (Or.inl (by simpa using h))
      · rcases mem_ite_cases h with ⟨_, h⟩ | ⟨_, h⟩
        · rcases mem_ite_cases h with ⟨_, h⟩ | ⟨_, h⟩
          · simp at h
          · simp only [List.mem_singleton] at h
            exact Or.inr (Or.inr (Or.inr (Or.inr ⟨_, by rw [h, app_assoc]⟩)))
        · exact Or.inr (Or.inr (Or.inl (by simpa using h)))
  | .null | .bool _ | .int _ | .str _ | .list _ =>
      exact Or.inl (by simpa using h)

theorem mem_rangeSeg {e : String} {d : Dict} {path : String} (h : e ∈ rangeSeg d path) :
    e = path ++ ": powerZoneRange must be an object" ∨
    e = path ++ ": powerZoneRange missing 'start'" ∨
    e = path ++ ": powerZoneRange missing 'end'" ∨
    (∃ u, e = path ++ (".powerZoneRange.start: " ++ u)) ∨
    (∃ u, e = path ++ (".powerZoneRange.end: " ++ u)) := by
  unfold rangeSeg at h
  rcases mem_ite_cases h with ⟨_, h⟩ | ⟨_, h⟩
  · exact mem_rangeFieldErrors h
  · simp at h

theorem mem_durSeg {e : String} {d : Dict} {path : String} (h : e ∈ durSeg d path) :
    e = path ++ ": duration must be a positive integer" := by
  unfold durSeg at h
  rcases mem_ite_cases h with ⟨_, h⟩ | ⟨_, h⟩
  · rcases mem_ite_cases h with ⟨_, h⟩ | ⟨_, h⟩ <;> simpa using h
  · simp at h

theorem mem_cadSeg {e : String} {d : Dict} {path : String} (h : e ∈ cadSeg d path) :
    e = path ++ ": cadence must be an integer between 40 and 150" := by
  unfold cadSeg at h
  rcases mem_ite_cases h with ⟨_, h⟩ | ⟨_, h⟩
  · rcases mem_ite_cases h with ⟨_, h⟩ | ⟨_, h⟩ <;> simpa using h
  · simp at h

theorem mem_altFieldErrorsInterval {e : String} {path : String} {v : Value}
    (h : e ∈ altFieldErrorsInterval path v) :
    e = path ++ ": alternating must be an object" ∨
    e = path ++ ".alternating: missing 'powerZoneA'" ∨
    e = path ++ ".alternating: missing 'powerZoneB'" ∨
    (∃ u, e = path ++ (".alternating.powerZoneA: " ++ u)) ∨
    (∃ u, e = path ++ (".alternating.powerZoneB: " ++ u)) := by
  unfold altFieldErrorsInterval at h
  match v with
  | .obj fs =>
      rw [List.mem_append] at h
      rcases h with h | h
      · rcases mem_ite_cases h with ⟨_, h⟩ | ⟨_, h⟩
        · rcases mem_ite_cases h with ⟨_, h⟩ | ⟨_, h⟩
          · simp at h
          · simp only [List.mem_singleton] at h
            exact Or.inr (Or.inr (Or.inr (Or.inl ⟨_, by rw [h, app_assoc]⟩)))
        · exact Or.inr (Or.inl (by simpa using h))
      · rcases mem_ite_cases h with ⟨_, h⟩ | ⟨_, h⟩
        · rcases mem_ite_cases h with ⟨_, h⟩ | ⟨_, h⟩
          · simp at h
          · simp only [List.mem_singleton] at h
            exact Or.inr (Or.inr (Or.inr (Or.inr ⟨_, by rw [h, app_assoc]⟩)))
        · exact Or.inr (Or.inr (Or.inl (by simpa using h)))
  | .null | .bool _ | .int _ | .str _ | .list _ =>
      exact Or.inl (by simpa using h)

theorem mem_altSegInterval {e : String} {d : Dict} {path : String}
    (h : e ∈ altSegInterval d path) :
    e = path ++ ": alternating must be an object" ∨
    e = path ++ ".alternating: missing 'powerZoneA'" ∨
    e = path ++ ".alternating: missing 'powerZoneB'" ∨
    (∃ u, e = path ++ (".alternating.powerZoneA: " ++ u)) ∨
    (∃ u, e = path ++ (".alternating.powerZoneB: " ++ u)) := by
  unfold altSegInterval at h
  rcases mem_ite_cases h with ⟨_, h⟩ | ⟨_, h⟩
  · exact mem_altFieldErrorsInterval h
  · simp at h

theorem mem_notesSeg {e : String} {d : Dict} {path : String} (h : e ∈ notesSeg d path) :
    e = path ++ ": notes must be a string" := by
  unfold notesSeg at h
  rcases mem_ite_cases h with ⟨_, h⟩ | ⟨_, h⟩
  · split at h <;> simpa using h
  · simp at h

/-! ### Claims -/

/-- C1 counterexample: an interval whose `alternating` object carries
`cadenceA: 999` (not an integer in `[40,150]`) — together with otherwise
valid fields — produces **no** error at all from `validate_interval`; in
particular no error for the cadence field, contrary to the claim. -/
theorem c1_counterexample :
    validate_interval [("id", .str "i"), ("name", .str "n"), ("duration", .int 60),
      ("powerZone", .int 2),
      ("alternating", .obj [("powerZoneA", .int 2), ("powerZoneB", .int 3),
        ("cadenceA", .int 999)])] "p" = [] ∧
    "p.alternating.cadenceA: must be an integer between 40 and 150" ∉
      validate_interval [("id", .str "i"), ("name", .str "n"), ("duration", .int 60),
        ("powerZone", .int 2),
        ("alternating", .obj [("powerZoneA", .int 2), ("powerZoneB", .int 3),
          ("cadenceA", .int 999)])] "p" := by
  constructor
  · decide
  · decide

/-- C1 (amended): the `[40,150]` integer bound on `cadenceA`/`cadenceB`
inside `alternating` is enforced only by `validate_work_block_definition`;
`validate_interval`'s alternating sub-validation never emits a cadence
error, for any interval whatsoever. -/
theorem c1_theorem :
    (∀ (fs alt : Dict) (path : String) (c : Value),
      getEntry fs "alternating" = some (.obj alt) →
      getEntry alt "cadenceA" = some c → cadenceOK c = false →
      path ++ ".alternating.cadenceA: must be an integer between 40 and 150" ∈
        validate_work_block_definition (.obj fs) path) ∧
    (∀ (fs alt : Dict) (path : String) (c : Value),
      getEntry fs "alternating" = some (.obj alt) →
      getEntry alt "cadenceB" = some c → cadenceOK c = false →
      path ++ ".alternating.cadenceB: must be an integer between 40 and 150" ∈
        validate_work_block_definition (.obj fs) path) ∧
    (∀ (d : Dict) (path : String),
      path ++ ".alternating.cadenceA: must be an integer between 40 and 150" ∉
        validate_interval d path) ∧
    (∀ (d : Dict) (path : String),
      path ++ ".alternating.cadenceB: must be an integer between 40 and 150" ∉
        validate_interval d path) := by
  refine ⟨?_, ?_, ?_, ?_⟩
  · intro fs alt path c h1 h2 h3
    have hkey : hasKey fs "alternating" = true := by simp [hasKey, h1]
    have hget : getD fs "alternating" = .obj alt := by simp [getD, h1]
    have hkey2 : hasKey alt "cadenceA" = true := by simp [hasKey, h2]
    have hget2 : getD alt "cadenceA" = c := by simp [getD, h2]
    simp [validate_work_block_definition, altSegW, hkey, hget, altFieldErrorsW,
      hkey2, hget2, h3, List.mem_append]
  · intro fs alt path c h1 h2 h3
    have hkey : hasKey fs "alternating" = true := by simp [hasKey, h1]
    have hget : getD fs "alternating" = .obj alt := by simp [getD, h1]
    have hkey2 : hasKey alt "cadenceB" = true := by simp [hasKey, h2]
    have hget2 : getD alt "cadenceB" = c := by simp [getD, h2]
    simp [validate_work_block_definition, altSegW, hkey, hget, altFieldErrorsW,
      hkey2, hget2, h3, List.mem_append]
  · intro d path h
    unfold validate_interval at h
    simp only [List.mem_append] at h
    rcases h with ((((((h | h) | h) | h) | h) | h) | h) | h
    · obtain ⟨u, hu⟩ := mem_reqSeg h
      exact path_app_ne (by decide) (by decide) path u hu.symm
    · rcases mem_exclSeg h with hu | hu
      · exact path_lit_ne (by decide) path hu.symm
      · exact path_lit_ne (by decide) path hu.symm
    · obtain ⟨u, hu | hu | hu⟩ := mem_pzSeg h
      · exact path_app_ne (by decide) (by decide) path u hu.symm
      · exact path_app_ne (by decide) (by decide) path u hu.symm
      · exact path_app_ne (by decide) (by decide) path u hu.symm
    · rcases mem_rangeSeg h with hu | hu | hu | ⟨u, hu⟩ | ⟨u, hu⟩
      · exact path_lit_ne (by decide) path hu.symm
      · exact path_lit_ne (by decide) path hu.symm
      · exact path_lit_ne (by decide) path hu.symm
      · exact path_app_ne (by decide) (by decide) path u hu.symm
      · exact path_app_ne (by decide) (by decide) path u hu.symm
    · exact path_lit_ne (by decide) path (mem_durSeg h).symm
    · exact path_lit_ne (by decide) path (mem_cadSeg h).symm
    · rcases mem_altSegInterval h with hu | hu | hu | ⟨u, hu⟩ | ⟨u, hu⟩
      · exact path_lit_ne (by decide) path hu.symm
      · exact path_lit_ne (by decide) path hu.symm
      · exact path_lit_ne (by decide) path hu.symm
      · exact path_app_ne (by decide) (by decide) path u hu.symm
      · exact path_app_ne (by decide) (by decide) path u hu.symm
    · exact path_lit_ne (by decide) path (mem_notesSeg h).symm
  · intro d path h
    unfold validate_interval at h
    simp only [List.mem_append] at h
    rcases h with ((((((h | h) | h) | h) | h) | h) | h) | h
    · obtain ⟨u, hu⟩ := mem_reqSeg h
      exact path_app_ne (by decide) (by decide) path u hu.symm
    · rcases mem_exclSeg h with hu | hu
      · exact path_lit_ne (by decide) path hu.symm
      · exact path_lit_ne (by decide) path hu.symm
    · obtain ⟨u, hu | hu | hu⟩ := mem_pzSeg h
      · exact path_app_ne (by decide) (by decide) path u hu.symm
      · exact path_app_ne (by decide) (by decide) path u hu.symm
      · exact path_app_ne (by decide) (by decide) path u hu.symm
    · rcases mem_rangeSeg h with hu | hu | hu | ⟨u, hu⟩ | ⟨u, hu⟩
      · exact path_lit_ne (by decide) path hu.symm
      · exact path_lit_ne (by decide) path hu.symm
      · exact path_lit_ne (by decide) path hu.symm
      · exact path_app_ne (by decide) (by decide) path u hu.symm
      · exact path_app_ne (by decide) (by decide) path u hu.symm
    · exact path_lit_ne (by decide) path (mem_durSeg h).symm
    · exact path_lit_ne (by decide) path (mem_cadSeg h).symm
    · rcases mem_altSegInterval h with hu | hu | hu | ⟨u, hu⟩ | ⟨u, hu⟩
      · exact path_lit_ne (by decide) path hu.symm
      · exact path_lit_ne (by decide) path hu.symm
      · exact path_lit_ne (by decide) path hu.symm
      · exact path_app_ne (by decide) (by decide) path u hu.symm
      · exact path_app_ne (by decide) (by decide) path u hu.symm
    · exact path_lit_ne (by decide) path (mem_notesSeg h).symm

/-- C1 witness: the work-block validator flags `cadenceA: 999`, while the
interval validator never emits that cadence diagnostic. -/
theorem c1_witness :
    "p" ++ ".alternating.cadenceA: must be an integer between 40 and 150" ∈
      validate_work_block_definition
        (.obj [("name", .str "Sprint"),
               ("alternating", .obj [("powerZoneA", .int 2), ("powerZoneB", .int 3),
                 ("cadenceA", .int 999)])]) "p" ∧
    "p" ++ ".alternating.cadenceA: must be an integer between 40 and 150" ∉
      validate_interval [("id", .str "i"), ("name", .str "n"), ("duration", .int 60),
        ("powerZone", .int 2),
        ("alternating", .obj [("powerZoneA", .int 2), ("powerZoneB", .int 3),
          ("cadenceA", .int 999)])] "p" :=
  ⟨c1_theorem.1 _ _ "p" (.int 999) rfl rfl rfl,
   c1_theorem.2.2.1 _ "p"⟩

/-- Non-prefix transport: if the literals `P` and `L` diverge before
either ends, then `path ++ P` is not a prefix of `path ++ (L ++ u)`. -/
theorem not_prefix_app {P L : String} (h1 : ¬ P.data <+: L.data) (h2 : ¬ L.data <+: P.data)
    (path u : String) : ¬ ((path ++ P).data <+: (path ++ (L ++ u)).data) := by
  rintro ⟨t, ht⟩
  simp only [String.data_app, List.append_assoc] at ht
  have ht' : P.data ++ t = L.data ++ u.data := List.append_cancel_left ht
  rcases List.append_eq_append_iff.1 ht' with ⟨a, ha, _⟩ | ⟨a, ha, _⟩
  · exact h1 ⟨a, ha.symm⟩
  · exact h2 ⟨a, ha.symm⟩

theorem not_prefix_lit {P L : String} (h1 : ¬ P.data <+: L.data) (h2 : ¬ L.data <+: P.data)
    (path : String) : ¬ ((path ++ P).data <+: (path ++ L).data) := by
  have h := not_prefix_app h1 h2 path ""
  rwa [app_empty] at h

/-- C3 counterexample: with both `powerZone` and `powerZoneRange` present
and an invalid `powerZone` value (`99`), `validate_interval` emits the
presence-conflict error *and* a value-level error — not "exactly the
single error" the claim requires regardless of the two fields' values. -/
theorem c3_counterexample :
    validate_interval [("id", .str "i"), ("name", .str "n"), ("duration", .int 60),
      ("powerZone", .int 99), ("powerZoneRange", .obj [("start", .int 1), ("end", .int 2)])] "p" =
      ["p: Cannot have both 'powerZone' and 'powerZoneRange'",
       "p: Power zone must be 1-7, got 99"] ∧
    validate_interval [("id", .str "i"), ("name", .str "n"), ("duration", .int 60),
      ("powerZone", .int 99), ("powerZoneRange", .obj [("start", .int 1), ("end", .int 2)])] "p" ≠
      ["p: Cannot have both 'powerZone' and 'powerZoneRange'"] := by
  constructor
  · decide
  · decide

/-- C3 (amended): whenever both `powerZone` and `powerZoneRange` are
present the conflict error is emitted, and value validation of both
fields still runs; when both values are themselves valid (and the other
fields are well-formed and absent respectively), the error list is
exactly the single conflict error. -/
theorem c3_theorem :
    (∀ (d : Dict) (path : String),
      hasKey d "powerZone" = true → hasKey d "powerZoneRange" = true →
      path ++ ": Cannot have both 'powerZone' and 'powerZoneRange'" ∈
        validate_interval d path) ∧
    (∀ (d : Dict) (path : String) (pzr : Dict),
      hasKey d "id" = true → hasKey d "name" = true →
      (∃ dur, getEntry d "duration" = some dur ∧ durationOK dur = true) →
      (∃ z, getEntry d "powerZone" = some z ∧ (validate_power_zone z).1 = true) →
      getEntry d "powerZoneRange" = some (.obj pzr) →
      (∃ s, getEntry pzr "start" = some s ∧ (validate_power_zone s).1 = true) →
      (∃ en, getEntry pzr "end" = some en ∧ (validate_power_zone en).1 = true) →
      hasKey d "cadence" = false → hasKey d "alternating" = false → hasKey d "notes" = false →
      validate_interval d path =
        [path ++ ": Cannot have both 'powerZone' and 'powerZoneRange'"]) := by
  constructor
  · intro d path hA hB
    simp [validate_interval, exclSeg, hA, hB, List.mem_append]
  · intro d path pzr hid hname hdur hz hr hs he hcad halt hnotes
    obtain ⟨dur, hdurE, hdurOK⟩ := hdur
    obtain ⟨z, hzE, hzOK⟩ := hz
    obtain ⟨s, hsE, hsOK⟩ := hs
    obtain ⟨en, heE, heOK⟩ := he
    have hkdur : hasKey d "duration" = true := by simp [hasKey, hdurE]
    have hkz : hasKey d "powerZone" = true := by simp [hasKey, hzE]
    have hkr : hasKey d "powerZoneRange" = true := by simp [hasKey, hr]
    have hgdur : getD d "duration" = dur := by simp [getD, hdurE]
    have hgz : getD d "powerZone" = z := by simp [getD, hzE]
    have hgr : getD d "powerZoneRange" = .obj pzr := by simp [getD, hr]
    have hks : hasKey pzr "start" = true := by simp [hasKey, hsE]
    have hke : hasKey pzr "end" = true := by simp [hasKey, heE]
    have hgs : getD pzr "start" = s := by simp [getD, hsE]
    have hge : getD pzr "end" = en := by simp [getD, heE]
    simp [validate_interval, reqSeg, exclSeg, pzSeg, rangeSeg, rangeFieldErrors,
      durSeg, cadSeg, altSegInterval, notesSeg,
      hid, hname, hkdur, hkz, hkr, hgdur, hgz, hgr, hks, hke, hgs, hge,
      hdurOK, hzOK, hsOK, heOK, hcad, halt, hnotes]

/-- C3 witness: an interval carrying both fields with valid values yields
exactly the single conflict error. -/
theorem c3_witness :
    validate_interval [("id", .str "i"), ("name", .str "n"), ("duration", .int 60),
      ("powerZone", .int 2), ("powerZoneRange", .obj [("start", .int 1), ("end", .int 7)])] "p" =
      ["p" ++ ": Cannot have both 'powerZone' and 'powerZoneRange'"] :=
  c3_theorem.2 _ "p" _ rfl rfl ⟨.int 60, rfl, rfl⟩ ⟨.int 2, rfl, rfl⟩ rfl
    ⟨.int 1, rfl, rfl⟩ ⟨.int 7, rfl, rfl⟩ rfl rfl rfl

/-- C7: the power-zone range sub-validation never compares `start` with
`end`: whenever both are present and individually valid, it contributes
no error at all, and consequently `validate_interval` emits no
range-related error (no error equal to, or path-extending, the range
diagnostics), however the two zones are ordered. -/
theorem c7_theorem :
    (∀ (path : String) (pzr : Dict),
      (∃ s, getEntry pzr "start" = some s ∧ (validate_power_zone s).1 = true) →
      (∃ en, getEntry pzr "end" = some en ∧ (validate_power_zone en).1 = true) →
      rangeFieldErrors path (.obj pzr) = []) ∧
    (∀ (d : Dict) (path : String) (pzr : Dict),
      getEntry d "powerZoneRange" = some (.obj pzr) →
      (∃ s, getEntry pzr "start" = some s ∧ (validate_power_zone s).1 = true) →
      (∃ en, getEntry pzr "end" = some en ∧ (validate_power_zone en).1 = true) →
      ∀ e ∈ validate_interval d path,
        ¬ ((path ++ ": powerZoneRange").data <+: e.data) ∧
        ¬ ((path ++ ".powerZoneRange").data <+: e.data)) := by
  have hmain : ∀ (path : String) (pzr : Dict),
      (∃ s, getEntry pzr "start" = some s ∧ (validate_power_zone s).1 = true) →
      (∃ en, getEntry pzr "end" = some en ∧ (validate_power_zone en).1 = true) →
      rangeFieldErrors path (.obj pzr) = [] := by
    intro path pzr hs he
    obtain ⟨s, hsE, hsOK⟩ := hs
    obtain ⟨en, heE, heOK⟩ := he
    have hks : hasKey pzr "start" = true := by simp [hasKey, hsE]
    have hke : hasKey pzr "end" = true := by simp [hasKey, heE]
    have hgs : getD pzr "start" = s := by simp [getD, hsE]
    have hge : getD pzr "end" = en := by simp [getD, heE]
    simp [rangeFieldErrors, hks, hke, hgs, hge, hsOK, heOK]
  refine ⟨hmain, ?_⟩
  intro d path pzr hr hs he e he'
  have hkr : hasKey d "powerZoneRange" = true := by simp [hasKey, hr]
  have hgr : getD d "powerZoneRange" = .obj pzr := by simp [getD, hr]
  unfold validate_interval at he'
  simp only [List.mem_append] at he'
  have hrange : rangeSeg d path = [] := by
    simp [rangeSeg, hkr, hgr, hmain path pzr ⟨_, hs.choose_spec⟩ ⟨_, he.choose_spec⟩]
  rcases he' with ((((((h | h) | h) | h) | h) | h) | h) | h
  · obtain ⟨u, hu⟩ := mem_reqSeg h
    rw [hu]
    exact ⟨not_prefix_app (by decide) (by decide) path u,
           not_prefix_app (by decide) (by decide) path u⟩
  · rcases mem_exclSeg h with hu | hu <;> rw [hu]
    · exact ⟨not_prefix_lit (by decide) (by decide) path,
             not_prefix_lit (by decide) (by decide) path⟩
    · exact ⟨not_prefix_lit (by decide) (by decide) path,
             not_prefix_lit (by decide) (by decide) path⟩
  · obtain ⟨u, hu | hu | hu⟩ := mem_pzSeg h <;> rw [hu]
    · exact ⟨not_prefix_app (by decide) (by decide) path u,
             not_prefix_app (by decide) (by decide) path u⟩
    · exact ⟨not_prefix_app (by decide) (by decide) path u,
             not_prefix_app (by decide) (by decide) path u⟩
    · exact ⟨not_prefix_app (by decide) (by decide) path u,
             not_prefix_app (by decide) (by decide) path u⟩
  · rw [hrange] at h
    simp at h
  · rw [mem_durSeg h]
    exact ⟨not_prefix_lit (by decide) (by decide) path,
           not_prefix_lit (by decide) (by decide) path⟩
  · rw [mem_cadSeg h]
    exact ⟨not_prefix_lit (by decide) (by decide) path,
           not_prefix_lit (by decide) (by decide) path⟩
  · rcases mem_altSegInterval h with hu | hu | hu | ⟨u, hu⟩ | ⟨u, hu⟩ <;> rw [hu]
    · exact ⟨not_prefix_lit (by decide) (by decide) path,
             not_prefix_lit (by decide) (by decide) path⟩
    · exact ⟨not_prefix_lit (by decide) (by decide) path,
             not_prefix_lit (by decide) (by decide) path⟩
    · exact ⟨not_prefix_lit (by decide) (by decide) path,
             not_prefix_lit (by decide) (by decide) path⟩
    · exact ⟨not_prefix_app (by decide) (by decide) path u,
             not_prefix_app (by decide) (by decide) path u⟩
    · exact ⟨not_prefix_app (by decide) (by decide) path u,
             not_prefix_app (by decide) (by decide) path u⟩
  · rw [mem_notesSeg h]
    exact ⟨not_prefix_lit (by decide) (by decide) path,
           not_prefix_lit (by decide) (by decide) path⟩

/-- C7 witness: an inverted range `{start: 7, end: 1}` contributes no
error. -/
theorem c7_witness :
    rangeFieldErrors "p" (.obj [("start", .int 7), ("end", .int 1)]) = [] :=
  c7_theorem.1 "p" _ ⟨.int 7, rfl, rfl⟩ ⟨.int 1, rfl, rfl⟩

theorem mem_nameSegW {e : String} {d : Dict} {path : String} (h : e ∈ nameSegW d path) :
    e = path ++ ": Missing required field 'name'" ∨
    e = path ++ ": name must be a non-empty string" := by
  unfold nameSegW at h
  rcases mem_ite_cases h with ⟨_, h⟩ | ⟨_, h⟩
  · exact Or.inl (by simpa using h)
  · split at h
    · next s _ =>
        rcases mem_ite_cases h with ⟨_, h⟩ | ⟨_, h⟩
        · exact Or.inr (by simpa using h)
        · simp at h
    · exact Or.inr (by simpa using h)

theorem mem_exclSegW {e : String} {d : Dict} {path : String} (h : e ∈ exclSegW d path) :
    e = path ++ ": Must have either 'powerZone', 'powerZoneRange', or 'alternating'" ∨
    e = path ++ ": Cannot have more than one of 'powerZone', 'powerZoneRange', or 'alternating'" := by
  unfold exclSegW at h
  rcases mem_ite_cases h with ⟨_, h⟩ | ⟨_, h⟩
  · exact Or.inl (by simpa using h)
  · rcases mem_ite_cases h with ⟨_, h⟩ | ⟨_, h⟩
    · exact Or.inr (by simpa using h)
    · simp at h

theorem mem_pzSegW {e : String} {d : Dict} {path : String} (h : e ∈ pzSegW d path) :
    ∃ u, e = path ++ (".powerZone: " ++ u) := by
  unfold pzSegW at h
  rcases mem_ite_cases h with ⟨_, h⟩ | ⟨_, h⟩
  · rcases mem_ite_cases h with ⟨_, h⟩ | ⟨_, h⟩
    · simp at h
    · simp only [List.mem_singleton] at h
      exact ⟨_, by rw [h, app_assoc]⟩
  · simp at h

theorem mem_altFieldErrorsW {e : String} {path : String} {v : Value}
    (h : e ∈ altFieldErrorsW path v) :
    e = path ++ ": alternating must be an object" ∨
    e = path ++ ".alternating: missing 'powerZoneA'" ∨
    e = path ++ ".alternating: missing 'powerZoneB'" ∨
    (∃ u, e = path ++ (".alternating.powerZoneA: " ++ u)) ∨
    (∃ u, e = path ++ (".alternating.powerZoneB: " ++ u)) ∨
    e = path ++ ".alternating.cadenceA: must be an integer between 40 and 150" ∨
    e = path ++ ".alternating.cadenceB: must be an integer between 40 and 150" := by
  unfold altFieldErrorsW at h
  match v with
  | .obj fs =>
      simp only [List.mem_append] at h
      rcases h with ((h | h) | h) | h
      · rcases mem_ite_cases h with ⟨_, h⟩ | ⟨_, h⟩
        · rcases mem_ite_cases h with ⟨_, h⟩ | ⟨_, h⟩
          · simp at h
          · simp only [List.mem_singleton] at h
            exact Or.inr (Or.inr (Or.inr (Or.inl ⟨_, by rw [h, app_assoc]⟩)))
        · exact Or.inr (Or.inl (by simpa using h))
      · rcases mem_ite_cases h with ⟨_, h⟩ | ⟨_, h⟩
        · rcases mem_ite_cases h with ⟨_, h⟩ | ⟨_, h⟩
          · simp at h
          · simp only [List.mem_singleton] at h
            exact Or.inr (Or.inr (Or.inr (Or.inr (Or.inl ⟨_, by rw [h, app_assoc]⟩))))
        · exact Or.inr (Or.inr (Or.inl (by simpa using h)))
      · rcases mem_ite_cases h with ⟨_, h⟩ | ⟨_, h⟩
        · rcases mem_ite_cases h with ⟨_, h⟩ | ⟨_, h⟩
          · simp at h
          · exact Or.inr (Or.inr (Or.inr (Or.inr (Or.inr (Or.inl (by simpa using h))))))
        · simp at h
      · rcases mem_ite_cases h with ⟨_, h⟩ | ⟨_, h⟩
        · rcases mem_ite_cases h with ⟨_, h⟩ | ⟨_, h⟩
          · simp at h
          · exact Or.inr (Or.inr (Or.inr (Or.inr (Or.inr (Or.inr (by simpa using h))))))
        · simp at h
  | .null | .bool _ | .int _ | .str _ | .list _ =>
      exact Or.inl (by simpa using h)

theorem mem_altSegW {e : String} {d : Dict} {path : String} (h : e ∈ altSegW d path) :
    e = path ++ ": alternating must be an object" ∨
    e = path ++ ".alternating: missing 'powerZoneA'" ∨
    e = path ++ ".alternating: missing 'powerZoneB'" ∨
    (∃ u, e = path ++ (".alternating.powerZoneA: " ++ u)) ∨
    (∃ u, e = path ++ (".alternating.powerZoneB: " ++ u)) ∨
    e = path ++ ".alternating.cadenceA: must be an integer between 40 and 150" ∨
    e = path ++ ".alternating.cadenceB: must be an integer between 40 and 150" := by
  unfold altSegW at h
  rcases mem_ite_cases h with ⟨_, h⟩ | ⟨_, h⟩
  · exact mem_altFieldErrorsW h
  · simp at h

theorem mem_cadSegW {e : String} {d : Dict} {path : String} (h : e ∈ cadSegW d path) :
    e = path ++ ": cadence must be an integer between 40 and 150" := by
  unfold cadSegW at h
  rcases mem_ite_cases h with ⟨_, h⟩ | ⟨_, h⟩
  · rcases mem_ite_cases h with ⟨_, h⟩ | ⟨_, h⟩
    · simp at h
    · simpa using h
  · simp at h

/-- C5: for every work-block definition object, `validate_work_block_definition`
reports the zero-variant error iff none of `powerZone`/`powerZoneRange`/
`alternating` is present, the too-many error iff at least two are present
(distinct wording), and it still value-validates each variant that is
present. -/
theorem c5_theorem : ∀ (d : Dict) (path : String),
    ((path ++ ": Must have either 'powerZone', 'powerZoneRange', or 'alternating'") ∈
        validate_work_block_definition (.obj d) path ↔ exclCount d = 0) ∧
    ((path ++ ": Cannot have more than one of 'powerZone', 'powerZoneRange', or 'alternating'") ∈
        validate_work_block_definition (.obj d) path ↔ 2 ≤ exclCount d) ∧
    (hasKey d "powerZone" = true → (validate_power_zone (getD d "powerZone")).1 = false →
      path ++ (".powerZone: " ++ (validate_power_zone (getD d "powerZone")).2) ∈
        validate_work_block_definition (.obj d) path) ∧
    (hasKey d "powerZoneRange" = true →
      ∀ e ∈ rangeFieldErrors path (getD d "powerZoneRange"),
        e ∈ validate_work_block_definition (.obj d) path) ∧
    (hasKey d "alternating" = true →
      ∀ e ∈ altFieldErrorsW path (getD d "alternating"),
        e ∈ validate_work_block_definition (.obj d) path) := by
  intro d path
  refine ⟨⟨?_, ?_⟩, ⟨?_, ?_⟩, ?_, ?_, ?_⟩
  · intro h
    simp only [validate_work_block_definition, List.mem_append] at h
    rcases h with ((((h | h) | h) | h) | h) | h
    · rcases mem_nameSegW h with hu | hu
      · exact (path_lit_ne (by decide) path hu.symm).elim
      · exact (path_lit_ne (by decide) path hu.symm).elim
    · unfold exclSegW at h
      split at h
      · next h0 => simpa using h0
      · split at h
        · simp only [List.mem_singleton] at h
          exact (path_lit_ne (by decide) path h.symm).elim
        · simp at h
    · obtain ⟨u, hu⟩ := mem_pzSegW h
      exact (path_app_ne (by decide) (by decide) path u hu.symm).elim
    · rcases mem_ite_cases h with ⟨_, h⟩ | ⟨_, h⟩
      · rcases mem_rangeFieldErrors h with hu | hu | hu | ⟨u, hu⟩ | ⟨u, hu⟩
        · exact (path_lit_ne (by decide) path hu.symm).elim
        · exact (path_lit_ne (by decide) path hu.symm).elim
        · exact (path_lit_ne (by decide) path hu.symm).elim
        · exact (path_app_ne (by decide) (by decide) path u hu.symm).elim
        · exact (path_app_ne (by decide) (by decide) path u hu.symm).elim
      · simp at h
    · rcases mem_altSegW h with hu | hu | hu | ⟨u, hu⟩ | ⟨u, hu⟩ | hu | hu
      · exact (path_lit_ne (by decide) path hu.symm).elim
      · exact (path_lit_ne (by decide) path hu.symm).elim
      · exact (path_lit_ne (by decide) path hu.symm).elim
      · exact (path_app_ne (by decide) (by decide) path u hu.symm).elim
      · exact (path_app_ne (by decide) (by decide) path u hu.symm).elim
      · exact (path_lit_ne (by decide) path hu.symm).elim
      · exact (path_lit_ne (by decide) path hu.symm).elim
    · exact (path_lit_ne (by decide) path (mem_cadSegW h).symm).elim
  · intro h0
    have he : exclSegW d path =
        [path ++ ": Must have either 'powerZone', 'powerZoneRange', or 'alternating'"] := by
      simp [exclSegW, h0]
    simp [validate_work_block_definition, List.mem_append, he]
  · intro h
    simp only [validate_work_block_definition, List.mem_append] at h
    rcases h with ((((h | h) | h) | h) | h) | h
    · rcases mem_nameSegW h with hu | hu
      · exact (path_lit_ne (by decide) path hu.symm).elim
      · exact (path_lit_ne (by decide) path hu.symm).elim
    · unfold exclSegW at h
      split at h
      · simp only [List.mem_singleton] at h
        exact (path_lit_ne (by decide) path h.symm).elim
      · split at h
        · next h1 => exact h1
        · simp at h
    · obtain ⟨u, hu⟩ := mem_pzSegW h
      exact (path_app_ne (by decide) (by decide) path u hu.symm).elim
    · rcases mem_ite_cases h with ⟨_, h⟩ | ⟨_, h⟩
      · rcases mem_rangeFieldErrors h with hu | hu | hu | ⟨u, hu⟩ | ⟨u, hu⟩
        · exact (path_lit_ne (by decide) path hu.symm).elim
        · exact (path_lit_ne (by decide) path hu.symm).elim
        · exact (path_lit_ne (by decide) path hu.symm).elim
        · exact (path_app_ne (by decide) (by decide) path u hu.symm).elim
        · exact (path_app_ne (by decide) (by decide) path u hu.symm).elim
      · simp at h
    · rcases mem_altSegW h with hu | hu | hu | ⟨u, hu⟩ | ⟨u, hu⟩ | hu | hu
      · exact (path_lit_ne (by decide) path hu.symm).elim
      · exact (path_lit_ne (by decide) path hu.symm).elim
      · exact (path_lit_ne (by decide) path hu.symm).elim
      · exact (path_app_ne (by decide) (by decide) path u hu.symm).elim
      · exact (path_app_ne (by decide) (by decide) path u hu.symm).elim
      · exact (path_lit_ne (by decide) path hu.symm).elim
      · exact (path_lit_ne (by decide) path hu.symm).elim
    · exact (path_lit_ne (by decide) path (mem_cadSegW h).symm).elim
  · intro h2
    have h0 : ¬ exclCount d = 0 := by omega
    have h1 : 1 < exclCount d := by omega
    have he : exclSegW d path =
        [path ++ ": Cannot have more than one of 'powerZone', 'powerZoneRange', or 'alternating'"] := by
      simp [exclSegW, h0, h1]
    simp [validate_work_block_definition, List.mem_append, he]
  · intro hk hval
    have hm : path ++ (".powerZone: " ++ (validate_power_zone (getD d "powerZone")).2) ∈
        pzSegW d path := by
      simp [pzSegW, hk, hval, ← app_assoc]
    simp only [validate_work_block_definition, List.mem_append]
    exact Or.inl (Or.inl (Or.inl (Or.inr hm)))
  · intro hk e he
    simp only [validate_work_block_definition, List.mem_append]
    refine Or.inl (Or.inl (Or.inr ?_))
    rw [if_pos hk]
    exact he
  · intro hk e he
    simp only [validate_work_block_definition, List.mem_append]
    refine Or.inl (Or.inr ?_)
    unfold altSegW
    rw [if_pos hk]
    exact he

/-- C5 witness: the empty definition (zero variants) receives the
"Must have either" error. -/
theorem c5_witness :
    "p" ++ ": Must have either 'powerZone', 'powerZoneRange', or 'alternating'" ∈
      validate_work_block_definition (.obj []) "p" :=
  (c5_theorem [] "p").1.mpr rfl

/-- C4: a work slot carrying `powerZone` gets the not-allowed error, and
the normal power-zone value validation also runs (both can fire); the
concrete melodic-roulette workout of the spec is invalid with both the
missing-`workBlockDefinitions` error and the not-allowed error. -/
theorem c4_theorem :
    (∀ (s : Dict) (path : String) (z : Value),
      getEntry s "intervalType" = some (.str "work") →
      getEntry s "powerZone" = some z →
      (path ++ ": powerZone not allowed for work intervals (use workBlockDefinitions instead)") ∈
          validate_roulette_slot (.obj s) path ∧
        ((validate_power_zone z).1 = false →
          path ++ (".powerZone: " ++ (validate_power_zone z).2) ∈
            validate_roulette_slot (.obj s) path)) ∧
    ((validate_workout [("id", .str "a"), ("name", .str "b"),
        ("mode", .str "melodic-roulette"),
        ("slots", .list [.obj [("id", .str "s1"), ("intervalType", .str "work"),
          ("playlistId", .str "p1"), ("powerZone", .int 5)]])]).1 = false ∧
      "Missing required field: 'workBlockDefinitions'" ∈
        (validate_workout [("id", .str "a"), ("name", .str "b"),
          ("mode", .str "melodic-roulette"),
          ("slots", .list [.obj [("id", .str "s1"), ("intervalType", .str "work"),
            ("playlistId", .str "p1"), ("powerZone", .int 5)]])]).2 ∧
      "slots[0]: powerZone not allowed for work intervals (use workBlockDefinitions instead)" ∈
        (validate_workout [("id", .str "a"), ("name", .str "b"),
          ("mode", .str "melodic-roulette"),
          ("slots", .list [.obj [("id", .str "s1"), ("intervalType", .str "work"),
            ("playlistId", .str "p1"), ("powerZone", .int 5)]])]).2) := by
  constructor
  · intro s path z h1 h2
    have hkz : hasKey s "powerZone" = true := by simp [hasKey, h2]
    have hgz : getD s "powerZone" = z := by simp [getD, h2]
    have hgt : getD s "intervalType" = .str "work" := by simp [getD, h1]
    constructor
    · have hm : path ++ ": powerZone not allowed for work intervals (use workBlockDefinitions instead)" ∈
          pzSegS s path := by
        simp [pzSegS, hkz, hgt, Value.eqStr, List.mem_append]
      simp only [validate_roulette_slot, List.mem_append]
      exact Or.inl (Or.inl (Or.inr hm))
    · intro hval
      have hm : path ++ (".powerZone: " ++ (validate_power_zone z).2) ∈ pzSegS s path := by
        simp [pzSegS, hkz, hgz, hval, List.mem_append, ← app_assoc]
      simp only [validate_roulette_slot, List.mem_append]
      exact Or.inl (Or.inl (Or.inr hm))
  · refine ⟨?_, ?_, ?_⟩ <;> decide

/-- C4 witness: the not-allowed diagnostic on a concrete work slot. -/
theorem c4_witness :
    "q" ++ ": powerZone not allowed for work intervals (use workBlockDefinitions instead)" ∈
      validate_roulette_slot (.obj [("id", .str "s1"), ("intervalType", .str "work"),
        ("playlistId", .str "p1"), ("powerZone", .int 5)]) "q" :=
  (c4_theorem.1 [("id", .str "s1"), ("intervalType", .str "work"),
    ("playlistId", .str "p1"), ("powerZone", .int 5)] "q" (.int 5) rfl rfl).1

/-- Every error of `validate_work_block_definition` is path-prefixed. -/
theorem wbd_prefixed (v : Value) (path : String) :
    ∀ e ∈ validate_work_block_definition v path, ∃ t, e = path ++ t := by
  intro e he
  match v with
  | .obj d =>
      simp only [validate_work_block_definition, List.mem_append] at he
      rcases he with ((((h | h) | h) | h) | h) | h
      · rcases mem_nameSegW h with hu | hu <;> exact ⟨_, hu⟩
      · rcases mem_exclSegW h with hu | hu <;> exact ⟨_, hu⟩
      · obtain ⟨u, hu⟩ := mem_pzSegW h
        exact ⟨_, hu⟩
      · rcases mem_ite_cases h with ⟨_, h⟩ | ⟨_, h⟩
        · rcases mem_rangeFieldErrors h with hu | hu | hu | ⟨u, hu⟩ | ⟨u, hu⟩ <;> exact ⟨_, hu⟩
        · simp at h
      · rcases mem_altSegW h with hu | hu | hu | ⟨u, hu⟩ | ⟨u, hu⟩ | hu | hu <;> exact ⟨_, hu⟩
      · exact ⟨_, mem_cadSegW h⟩
  | .null | .bool _ | .int _ | .str _ | .list _ =>
      exact ⟨_, by simpa [validate_work_block_definition] using he⟩

/-- Every error of `validate_roulette_slot` is path-prefixed. -/
theorem slot_prefixed (v : Value) (path : String) :
    ∀ e ∈ validate_roulette_slot v path, ∃ t, e = path ++ t := by
  intro e he
  match v with
  | .obj s =>
      simp only [validate_roulette_slot, List.mem_append] at he
      rcases he with ((((((h | h) | h) | h) | h) | h) | h) | h
      · unfold idSegS at h
        rcases mem_ite_cases h with ⟨_, h⟩ | ⟨_, h⟩
        · exact ⟨_, by simpa using h⟩
        · simp at h
      · unfold typeSegS at h
        rcases mem_ite_cases h with ⟨_, h⟩ | ⟨_, h⟩
        · exact ⟨_, by simpa using h⟩
        · rcases mem_ite_cases h with ⟨_, h⟩ | ⟨_, h⟩
          · simp only [List.mem_singleton] at h
            exact ⟨": intervalType must be 'work' or 'recovery', got '" ++
              ((getD s "intervalType").pyStr ++ "'"), by rw [h]; simp only [app_assoc]⟩
          · simp at h
      · unfold playlistSegS at h
        rcases mem_ite_cases h with ⟨_, h⟩ | ⟨_, h⟩
        · exact ⟨_, by simpa using h⟩
        · split at h
          · next str _ =>
              rcases mem_ite_cases h with ⟨_, h⟩ | ⟨_, h⟩
              · exact ⟨_, by simpa using h⟩
              · simp at h
          · exact ⟨_, by simpa using h⟩
      · unfold durRangeSegS at h
        rcases mem_ite_cases h with ⟨_, h⟩ | ⟨_, h⟩
        · rcases mem_ite_cases h with ⟨_, h⟩ | ⟨_, h⟩
          · simp at h
          · simp only [List.mem_singleton] at h
            exact ⟨": durationRange must be one of " ++
              (Value.pyStr (.list [.str "short", .str "medium", .str "long"]) ++
                (", got '" ++ ((getD s "durationRange").pyStr ++ "'"))),
              by rw [h]; simp only [app_assoc]⟩
        · simp at h
      · unfold bothSegS at h
        rcases mem_ite_cases h with ⟨_, h⟩ | ⟨_, h⟩
        · exact ⟨_, by simpa using h⟩
        · simp at h
      · unfold pzSegS at h
        rcases mem_ite_cases h with ⟨_, h⟩ | ⟨_, h⟩
        · rw [List.mem_append] at h
          rcases h with h | h
          · rcases mem_ite_cases h with ⟨_, h⟩ | ⟨_, h⟩
            · exact ⟨_, by simpa using h⟩
            · simp at h
          · rcases mem_ite_cases h with ⟨_, h⟩ | ⟨_, h⟩
            · simp at h
            · simp only [List.mem_singleton] at h
              exact ⟨".powerZone: " ++ (validate_power_zone (getD s "powerZone")).2,
                by rw [h]; simp only [app_assoc]⟩
        · simp at h
      · unfold rangeSegS at h
        rcases mem_ite_cases h with ⟨_, h⟩ | ⟨_, h⟩
        · rw [List.mem_append] at h
          rcases h with h | h
          · rcases mem_ite_cases h with ⟨_, h⟩ | ⟨_, h⟩
            · exact ⟨_, by simpa using h⟩
            · simp at h
          · rcases mem_rangeFieldErrors h with hu | hu | hu | ⟨u, hu⟩ | ⟨u, hu⟩ <;> exact ⟨_, hu⟩
        · simp at h
      · unfold cadSegS at h
        rcases mem_ite_cases h with ⟨_, h⟩ | ⟨_, h⟩
        · rw [List.mem_append] at h
          rcases h with h | h
          · rcases mem_ite_cases h with ⟨_, h⟩ | ⟨_, h⟩
            · exact ⟨_, by simpa using h⟩
            · simp at h
          · rcases mem_ite_cases h with ⟨_, h⟩ | ⟨_, h⟩
            · simp at h
            · exact ⟨_, by simpa using h⟩
        · simp at h
  | .null | .bool _ | .int _ | .str _ | .list _ =>
      exact ⟨_, by simpa [validate_roulette_slot] using he⟩

theorem mem_reqSegTop {e : String} {w : Dict} (h : e ∈ reqSegTop w) :
    ∃ u, e = "Missing required field: '" ++ u := by
  unfold reqSegTop at h
  rw [List.mem_flatMap] at h
  obtain ⟨f, _, hf⟩ := h
  rcases mem_ite_cases hf with ⟨_, h⟩ | ⟨_, h⟩
  · simp at h
  · simp only [List.mem_singleton] at h
    exact ⟨f ++ "'", by rw [h]; simp only [app_assoc]⟩

theorem mem_themeSeg {e : String} {w : Dict} (h : e ∈ themeSeg w) :
    ∃ u, e = "theme must be one of " ++ u := by
  unfold themeSeg at h
  rcases mem_ite_cases h with ⟨_, h⟩ | ⟨_, h⟩
  · rcases mem_ite_cases h with ⟨_, h⟩ | ⟨_, h⟩
    · simp at h
    · simp only [List.mem_singleton] at h
      exact ⟨Value.pyStr (.list (validThemes.map .str)) ++
        (", got '" ++ ((getD w "theme").pyStr ++ "'")), by rw [h]; simp only [app_assoc]⟩
  · simp at h

theorem mem_wbdSeg {e : String} {w : Dict} (h : e ∈ wbdSeg w) :
    e = "Missing required field: 'workBlockDefinitions'" ∨
    e = "'workBlockDefinitions' must be an array" ∨
    e = "'workBlockDefinitions' must have at least one definition" ∨
    ∃ u, e = "workBlockDefinitions[" ++ u := by
  unfold wbdSeg at h
  rcases mem_ite_cases h with ⟨_, h⟩ | ⟨_, h⟩
  · exact Or.inl (by simpa using h)
  · split at h
    · next xs =>
        rcases mem_ite_cases h with ⟨_, h⟩ | ⟨_, h⟩
        · exact Or.inr (Or.inr (Or.inl (by simpa using h)))
        · rw [List.mem_flatMap] at h
          obtain ⟨p, _, hp⟩ := h
          obtain ⟨t, ht⟩ := wbd_prefixed _ _ _ hp
          exact Or.inr (Or.inr (Or.inr ⟨toString p.1 ++ ("]" ++ t),
            by rw [ht]; simp only [app_assoc]⟩))
    · exact Or.inr (Or.inl (by simpa using h))

theorem mem_slotsSeg {e : String} {w : Dict} (h : e ∈ slotsSeg w) :
    e = "Missing required field: 'slots'" ∨
    e = "'slots' must be an array" ∨
    e = "'slots' must have at least one slot" ∨
    ∃ u, e = "slots[" ++ u := by
  unfold slotsSeg at h
  rcases mem_ite_cases h with ⟨_, h⟩ | ⟨_, h⟩
  · exact Or.inl (by simpa using h)
  · split at h
    · next xs =>
        rcases mem_ite_cases h with ⟨_, h⟩ | ⟨_, h⟩
        · exact Or.inr (Or.inr (Or.inl (by simpa using h)))
        · rw [List.mem_flatMap] at h
          obtain ⟨p, _, hp⟩ := h
          obtain ⟨t, ht⟩ := slot_prefixed _ _ _ hp
          exact Or.inr (Or.inr (Or.inr ⟨toString p.1 ++ ("]" ++ t),
            by rw [ht]; simp only [app_assoc]⟩))
    · exact Or.inr (Or.inl (by simpa using h))

/-- No error produced on the melodic-roulette path equals either of the
two standard-mode diagnostics named in C6. -/
theorem melodic_no_std (w : Dict) :
    ∀ e ∈ reqSegTop w ++ validate_melodic_roulette w,
      e ≠ "Workout must have either 'intervals' or 'sequence' array" ∧
      e ≠ "totalDuration must be a positive integer" := by
  intro e he
  rw [List.mem_append] at he
  rcases he with h | h
  · obtain ⟨u, hu⟩ := mem_reqSegTop h
    rw [hu]
    exact ⟨app_ne_lit (by decide) (by decide) u, app_ne_lit (by decide) (by decide) u⟩
  · unfold validate_melodic_roulette at h
    simp only [List.mem_append] at h
    rcases h with ((h | h) | h) | h
    · rcases mem_ite_cases h with ⟨_, h⟩ | ⟨_, h⟩
      · have he' : e = "mode must be 'melodic-roulette'" := by simpa using h
        rw [he']
        exact ⟨by decide, by decide⟩
      · simp at h
    · rcases mem_wbdSeg h with hu | hu | hu | ⟨u, hu⟩ <;> rw [hu]
      · exact ⟨by decide, by decide⟩
      · exact ⟨by decide, by decide⟩
      · exact ⟨by decide, by decide⟩
      · exact ⟨app_ne_lit (by decide) (by decide) u, app_ne_lit (by decide) (by decide) u⟩
    · rcases mem_slotsSeg h with hu | hu | hu | ⟨u, hu⟩ <;> rw [hu]
      · exact ⟨by decide, by decide⟩
      · exact ⟨by decide, by decide⟩
      · exact ⟨by decide, by decide⟩
      · exact ⟨app_ne_lit (by decide) (by decide) u, app_ne_lit (by decide) (by decide) u⟩
    · obtain ⟨u, hu⟩ := mem_themeSeg h
      rw [hu]
      exact ⟨app_ne_lit (by decide) (by decide) u, app_ne_lit (by decide) (by decide) u⟩

/-- C6: a workout whose `mode` is `"melodic-roulette"` is delegated
entirely to `validate_melodic_roulette` (after the `id`/`name` check) and
the standard-mode checks are skipped: the either-`intervals`-or-`sequence`
error can never appear, and `totalDuration` is never validated. -/
theorem c6_theorem : ∀ (w : Dict),
    getEntry w "mode" = some (.str "melodic-roulette") →
    validate_workout w =
      ((reqSegTop w ++ validate_melodic_roulette w).isEmpty,
        reqSegTop w ++ validate_melodic_roulette w) ∧
    "Workout must have either 'intervals' or 'sequence' array" ∉ (validate_workout w).2 ∧
    "totalDuration must be a positive integer" ∉ (validate_workout w).2 := by
  intro w hm
  have hcond : (getD w "mode").eqStr "melodic-roulette" = true := by
    simp [getD, hm, Value.eqStr]
  have heq : validate_workout w =
      ((reqSegTop w ++ validate_melodic_roulette w).isEmpty,
        reqSegTop w ++ validate_melodic_roulette w) := by
    unfold validate_workout
    rw [hcond]
    simp
  refine ⟨heq, ?_, ?_⟩
  · intro h
    rw [heq] at h
    exact (melodic_no_std w _ h).1 rfl
  · intro h
    rw [heq] at h
    exact (melodic_no_std w _ h).2 rfl

/-- C6 witness: a melodic-roulette workout with `totalDuration: 0` gets
no standard-mode diagnostics. -/
theorem c6_witness :
    validate_workout [("id", .str "a"), ("name", .str "b"),
        ("mode", .str "melodic-roulette"), ("totalDuration", .int 0)] =
      ((reqSegTop [("id", .str "a"), ("name", .str "b"),
          ("mode", .str "melodic-roulette"), ("totalDuration", .int 0)] ++
        validate_melodic_roulette [("id", .str "a"), ("name", .str "b"),
          ("mode", .str "melodic-roulette"), ("totalDuration", .int 0)]).isEmpty,
        reqSegTop [("id", .str "a"), ("name", .str "b"),
          ("mode", .str "melodic-roulette"), ("totalDuration", .int 0)] ++
        validate_melodic_roulette [("id", .str "a"), ("name", .str "b"),
          ("mode", .str "melodic-roulette"), ("totalDuration", .int 0)]) ∧
    "Workout must have either 'intervals' or 'sequence' array" ∉
      (validate_workout [("id", .str "a"), ("name", .str "b"),
        ("mode", .str "melodic-roulette"), ("totalDuration", .int 0)]).2 ∧
    "totalDuration must be a positive integer" ∉
      (validate_workout [("id", .str "a"), ("name", .str "b"),
        ("mode", .str "melodic-roulette"), ("totalDuration", .int 0)]).2 :=
  c6_theorem _ rfl

/-- C8: in both branches, `validate_workout` returns `isValid` true iff
the error list is empty. -/
theorem c8_theorem : ∀ w : Dict, (validate_workout w).1 = true ↔ (validate_workout w).2 = [] := by
  intro w
  unfold validate_workout
  split <;> simp [List.isEmpty_iff]

/-- C9: the concrete single-interval sequence workout of the spec is
valid with zero errors. -/
theorem c9_theorem :
    validate_workout [("id", .str "a"), ("name", .str "b"),
      ("sequence", .list [.obj [("type", .str "interval"), ("id", .str "i1"),
        ("name", .str "Warmup"), ("duration", .int 300), ("powerZone", .int 2)]])] =
    (true, []) := by decide

/-- Removing the `mode` key from a workout mapping. -/
def removeMode (w : Dict) : Dict := w.filter fun kv => kv.1 != "mode"

theorem getEntry_removeMode_ne (w : Dict) (k : String) (hk : k ≠ "mode") :
    getEntry (removeMode w) k = getEntry w k := by
  induction w with
  | nil => rfl
  | cons kv rest ih =>
      obtain ⟨k', v⟩ := kv
      by_cases h : k' = "mode"
      · subst h
        have hne : ("mode" == k) = false := beq_eq_false_iff_ne.mpr (Ne.symm hk)
        simp [removeMode, List.filter, getEntry, hne]
        simpa [removeMode] using ih
      · have hkeep : (k' != "mode") = true := by
          simp [bne, beq_eq_false_iff_ne.mpr h]
        by_cases h2 : k' = k
        · subst h2
          simp [removeMode, List.filter, hkeep, getEntry]
        · have hne2 : (k' == k) = false := beq_eq_false_iff_ne.mpr h2
          simp [removeMode, List.filter, hkeep, getEntry, hne2]
          simpa [removeMode] using ih

theorem getEntry_removeMode_self (w : Dict) : getEntry (removeMode w) "mode" = none := by
  induction w with
  | nil => rfl
  | cons kv rest ih =>
      obtain ⟨k', v⟩ := kv
      by_cases h : k' = "mode"
      · subst h
        simp [removeMode, List.filter]
        simpa [removeMode] using ih
      · have hkeep : (k' != "mode") = true := by
          simp [bne, beq_eq_false_iff_ne.mpr h]
        have hne : (k' == "mode") = false := beq_eq_false_iff_ne.mpr h
        simp [removeMode, List.filter, hkeep, getEntry, hne]
        simpa [removeMode] using ih

/-- C10: a present but unrecognized `mode` value is silently treated as
standard mode: validation behaves exactly as if the `mode` key were
absent. -/
theorem c10_theorem : ∀ (w : Dict) (v : Value),
    getEntry w "mode" = some v → v ≠ .str "melodic-roulette" →
    validate_workout w = validate_workout (removeMode w) := by
  intro w v hm hv
  have h1 : (getD w "mode").eqStr "melodic-roulette" = false := by
    rw [getD, hm]
    match v with
    | .str s =>
        simp only [Option.getD_some, Value.eqStr]
        rw [beq_eq_false_iff_ne]
        intro h
        exact hv (congrArg Value.str h)
    | .null | .bool _ | .int _ | .list _ | .obj _ => rfl
  have h2 : (getD (removeMode w) "mode").eqStr "melodic-roulette" = false := by
    rw [getD, getEntry_removeMode_self]
    rfl
  have e1 : getEntry (removeMode w) "id" = getEntry w "id" :=
    getEntry_removeMode_ne w "id" (by decide)
  have e2 : getEntry (removeMode w) "name" = getEntry w "name" :=
    getEntry_removeMode_ne w "name" (by decide)
  have e3 : getEntry (removeMode w) "intervals" = getEntry w "intervals" :=
    getEntry_removeMode_ne w "intervals" (by decide)
  have e4 : getEntry (removeMode w) "sequence" = getEntry w "sequence" :=
    getEntry_removeMode_ne w "sequence" (by decide)
  have e5 : getEntry (removeMode w) "blocks" = getEntry w "blocks" :=
    getEntry_removeMode_ne w "blocks" (by decide)
  have e6 : getEntry (removeMode w) "totalDuration" = getEntry w "totalDuration" :=
    getEntry_removeMode_ne w "totalDuration" (by decide)
  have e7 : getEntry (removeMode w) "theme" = getEntry w "theme" :=
    getEntry_removeMode_ne w "theme" (by decide)
  have hreq : reqSegTop (removeMode w) = reqSegTop w := by
    simp only [reqSegTop, hasKey, List.flatMap_cons, List.flatMap_nil, e1, e2]
  have hstd : stdErrs (removeMode w) = stdErrs w := by
    simp only [stdErrs, themeSeg, hasKey, getD, e3, e4, e5, e6, e7]
  unfold validate_workout
  rw [h1, h2]
  simp only [Bool.false_eq_true, if_false]
  rw [hreq, hstd]

/-- C10 witness: `mode: "random"` validates exactly like no `mode` at all. -/
theorem c10_witness :
    validate_workout [("id", .str "a"), ("name", .str "b"), ("mode", .str "random"),
      ("intervals", .list [])] =
    validate_workout (removeMode [("id", .str "a"), ("name", .str "b"),
      ("mode", .str "random"), ("intervals", .list [])]) :=
  c10_theorem _ (.str "random") rfl (by intro h; simp at h)

/-! ### C2: characterizing `validate_power_zone` -/

/-- Following the spec's words (for the counterexample): the
case-insensitive pattern `(?:z(?:one)?\s*)?[1-7][+-]?` with the match
spanning the whole token.  `ciAfterDigit`/`ciDigit`/`ciAfterZ` are its
pieces. -/
def ciAfterDigit : List Char → Bool
  | [] => true
  | [c] => c = '+' || c = '-'
  | _ => false

/-- Spec-side `[1-7][+-]?` spanning the rest of the token. -/
def ciDigit : List Char → Bool
  | [] => false
  | c :: rest => isZoneDigit c && ciAfterDigit rest

/-- Spec-side `(?:one)?\s*[1-7][+-]?` (case-insensitive) spanning the rest. -/
def ciAfterZ (cs : List Char) : Bool :=
  (match cs with
   | a :: b :: c :: rest =>
       if a.toLower = 'o' && b.toLower = 'n' && c.toLower = 'e' then
         ciDigit (List.dropWhile isPySpace rest)
       else false
   | _ => false) ||
  ciDigit (List.dropWhile isPySpace cs)

/-- Spec-side full-token case-insensitive matcher. -/
def specZoneMatchCI (s : String) : Bool :=
  (match s.data with
   | c :: rest => if c.toLower = 'z' then ciAfterZ rest else false
   | [] => false) ||
  ciDigit s.data

/-- C2 counterexample: `"ZONE3"` fully matches the claimed
case-insensitive pattern yet `validate_power_zone` rejects it (the
source regex matches the `one` part case-sensitively). -/
theorem c2_counterexample :
    specZoneMatchCI "ZONE3" = true ∧ (validate_power_zone (.str "ZONE3")).1 = false := by
  constructor
  · decide
  · decide

theorem endOk_iff (l : List Char) : endOk l = true ↔ l = [] ∨ l = ['\n'] := by
  simp [endOk, Bool.or_eq_true, beq_iff_eq]

theorem afterDigit_iff (l : List Char) :
    afterDigit l = true ↔
    ∃ sign nl, l = sign ++ nl ∧ (sign = [] ∨ sign = ['+'] ∨ sign = ['-']) ∧
      (nl = [] ∨ nl = ['\n']) := by
  constructor
  · intro h
    match l with
    | [] => exact ⟨[], [], rfl, Or.inl rfl, Or.inl rfl⟩
    | c :: rest =>
        simp only [afterDigit] at h
        by_cases hc : c = '+' ∨ c = '-'
        · rw [if_pos (by simp only [Bool.or_eq_true, decide_eq_true_eq]; exact hc)] at h
          rcases (endOk_iff rest).1 h with rfl | rfl
          · rcases hc with rfl | rfl
            · exact ⟨['+'], [], rfl, Or.inr (Or.inl rfl), Or.inl rfl⟩
            · exact ⟨['-'], [], rfl, Or.inr (Or.inr rfl), Or.inl rfl⟩
          · rcases hc with rfl | rfl
            · exact ⟨['+'], ['\n'], rfl, Or.inr (Or.inl rfl), Or.inr rfl⟩
            · exact ⟨['-'], ['\n'], rfl, Or.inr (Or.inr rfl), Or.inr rfl⟩
        · rw [if_neg (by simp only [Bool.or_eq_true, decide_eq_true_eq]; exact hc)] at h
          rcases (endOk_iff _).1 h with h' | h'
          · simp at h'
          · simp only [List.cons.injEq] at h'
            obtain ⟨rfl, rfl⟩ := h'
            exact ⟨[], ['\n'], rfl, Or.inl rfl, Or.inr rfl⟩
  · rintro ⟨sign, nl, rfl, hs, hn⟩
    rcases hs with rfl | rfl | rfl <;> rcases hn with rfl | rfl <;> decide

theorem matchDigit_iff (l : List Char) :
    matchDigit l = true ↔
    ∃ d sign nl, l = d :: (sign ++ nl) ∧ isZoneDigit d = true ∧
      (sign = [] ∨ sign = ['+'] ∨ sign = ['-']) ∧ (nl = [] ∨ nl = ['\n']) := by
  constructor
  · intro h
    match l with
    | [] => simp [matchDigit] at h
    | c :: rest =>
        simp only [matchDigit, Bool.and_eq_true] at h
        obtain ⟨h1, h2⟩ := h
        obtain ⟨sign, nl, rfl, hs, hn⟩ := (afterDigit_iff rest).1 h2
        exact ⟨c, sign, nl, rfl, h1, hs, hn⟩
  · rintro ⟨d, sign, nl, rfl, hd, hs, hn⟩
    simp only [matchDigit, Bool.and_eq_true]
    exact ⟨hd, (afterDigit_iff _).2 ⟨sign, nl, rfl, hs, hn⟩⟩

theorem digit_not_space {d : Char} (hd : isZoneDigit d = true) : isPySpace d = false := by
  by_contra hsp
  have hsp' : isPySpace d = true := by
    cases hh : isPySpace d
    · exact absurd hh hsp
    · rfl
  rw [isPySpace_iff_mem] at hsp'
  fin_cases hsp' <;> exact absurd hd (by decide)

theorem dropWhile_spaces_app {ws rest : List Char} (hws : ∀ c ∈ ws, isPySpace c = true)
    (hrest : matchDigit rest = true) :
    List.dropWhile isPySpace (ws ++ rest) = rest := by
  induction ws with
  | nil =>
      simp only [List.nil_append]
      match rest, hrest with
      | d :: tl, hrest =>
          simp only [matchDigit, Bool.and_eq_true] at hrest
          simp [List.dropWhile, digit_not_space hrest.1]
  | cons a ws ih =>
      have ha : isPySpace a = true := hws a (List.mem_cons_self a ws)
      simp only [List.cons_append, List.dropWhile, ha]
      exact ih fun c hc => hws c (List.mem_cons_of_mem a hc)

/-- The language accepted by the source's power-zone regex on a string,
stated declaratively: an optional `Z`/`z` (optionally followed by the
lowercase letters `one`), whitespace only after such a prefix, a digit
`1`-`7`, an optional sign, and an optional trailing newline (admitted by
Python's `$`). -/
def ZoneStrOK (cs : List Char) : Prop :=
  ∃ (pre ws sign nl : List Char) (d : Char),
    cs = pre ++ ws ++ d :: (sign ++ nl) ∧
    (pre = [] ∨ pre = ['Z'] ∨ pre = ['z'] ∨ pre = ['Z','o','n','e'] ∨ pre = ['z','o','n','e']) ∧
    (∀ c ∈ ws, isPySpace c = true) ∧ (pre = [] → ws = []) ∧
    isZoneDigit d = true ∧
    (sign = [] ∨ sign = ['+'] ∨ sign = ['-']) ∧ (nl = [] ∨ nl = ['\n'])

theorem pyZoneMatch_iff (cs : List Char) : pyZoneMatch cs = true ↔ ZoneStrOK cs := by
  constructor
  · intro h
    simp only [pyZoneMatch, Bool.or_eq_true] at h
    rcases h with h | h
    · split at h
      · next c rest =>
          split at h
          · next hc =>
              simp only [Bool.or_eq_true, decide_eq_true_eq] at hc
              simp only [matchAfterZ, Bool.or_eq_true] at h
              rcases h with h | h
              · split at h
                · next r =>
                    have hsplit := List.takeWhile_append_dropWhile isPySpace r
                    obtain ⟨d, sign, nl, hdec, hd, hs, hn⟩ := (matchDigit_iff _).1 h
                    refine ⟨[c, 'o', 'n', 'e'], List.takeWhile isPySpace r, sign, nl, d,
                      ?_, ?_, ?_, ?_, hd, hs, hn⟩
                    · have hr : r = List.takeWhile isPySpace r ++ (d :: (sign ++ nl)) := by
                        rw [← hdec]; exact hsplit.symm
                      conv_lhs => rw [hr]
                      simp
                    · rcases hc with rfl | rfl
                      · exact Or.inr (Or.inr (Or.inr (Or.inl rfl)))
                      · exact Or.inr (Or.inr (Or.inr (Or.inr rfl)))
                    · exact fun x hx => List.mem_takeWhile_imp hx
                    · intro habs; simp at habs
                · simp at h
              · have hsplit := List.takeWhile_append_dropWhile isPySpace rest
                obtain ⟨d, sign, nl, hdec, hd, hs, hn⟩ := (matchDigit_iff _).1 h
                refine ⟨[c], List.takeWhile isPySpace rest, sign, nl, d, ?_, ?_, ?_, ?_, hd, hs, hn⟩
                · have hr : rest = List.takeWhile isPySpace rest ++ (d :: (sign ++ nl)) := by
                    rw [← hdec]; exact hsplit.symm
                  conv_lhs => rw [hr]
                  simp
                · rcases hc with rfl | rfl
                  · exact Or.inr (Or.inl rfl)
                  · exact Or.inr (Or.inr (Or.inl rfl))
                · exact fun x hx => List.mem_takeWhile_imp hx
                · intro habs; simp at habs
          · simp at h
      · simp at h
    · obtain ⟨d, sign, nl, rfl, hd, hs, hn⟩ := (matchDigit_iff _).1 h
      exact ⟨[], [], sign, nl, d, rfl, Or.inl rfl, by simp, fun _ => rfl, hd, hs, hn⟩
  · rintro ⟨pre, ws, sign, nl, d, rfl, hpre, hws, hprews, hd, hs, hn⟩
    have hmd : matchDigit (d :: (sign ++ nl)) = true :=
      (matchDigit_iff _).2 ⟨d, sign, nl, rfl, hd, hs, hn⟩
    have hdrop := dropWhile_spaces_app hws hmd
    rcases hpre with rfl | rfl | rfl | rfl | rfl
    · rw [hprews rfl]
      simp only [List.nil_append, pyZoneMatch, Bool.or_eq_true]
      exact Or.inr hmd
    · simp only [List.cons_append, List.nil_append, pyZoneMatch, matchAfterZ,
        Bool.or_eq_true]
      refine Or.inl ?_
      rw [if_pos (by decide)]
      simp only [Bool.or_eq_true]
      exact Or.inr (by rw [hdrop]; exact hmd)
    · simp only [List.cons_append, List.nil_append, pyZoneMatch, matchAfterZ,
        Bool.or_eq_true]
      refine Or.inl ?_
      rw [if_pos (by decide)]
      simp only [Bool.or_eq_true]
      exact Or.inr (by rw [hdrop]; exact hmd)
    · simp only [List.cons_append, List.nil_append, pyZoneMatch, matchAfterZ,
        Bool.or_eq_true]
      refine Or.inl ?_
      rw [if_pos (by decide)]
      simp only [Bool.or_eq_true]
      exact Or.inl (by rw [hdrop]; exact hmd)
    · simp only [List.cons_append, List.nil_append, pyZoneMatch, matchAfterZ,
        Bool.or_eq_true]
      refine Or.inl ?_
      rw [if_pos (by decide)]
      simp only [Bool.or_eq_true]
      exact Or.inl (by rw [hdrop]; exact hmd)

/-- C2 (amended): `validate_power_zone` accepts exactly (i) every value
Python regards as an integer (booleans included) whose numeric value lies
in `[1,7]`, and (ii) every string in the language `ZoneStrOK` of the
source's regex — where the `one` after `Z`/`z` is lowercase-only and a
single trailing newline is tolerated by Python's `$`.  Everything else is
rejected. -/
theorem c2_theorem : ∀ v : Value,
    (validate_power_zone v).1 = true ↔
    ((∃ n, v.pyInt? = some n ∧ 1 ≤ n ∧ n ≤ 7) ∨ (∃ s, v = .str s ∧ ZoneStrOK s.data)) := by
  intro v
  match v with
  | .int n =>
      constructor
      · intro h
        simp only [validate_power_zone, Value.pyInt?] at h
        split at h
        · next hn => exact Or.inl ⟨n, rfl, hn.1, hn.2⟩
        · simp at h
      · rintro (⟨m, hm, h1, h7⟩ | ⟨s, hs, _⟩)
        · simp only [Value.pyInt?, Option.some.injEq] at hm
          subst hm
          simp [validate_power_zone, Value.pyInt?, h1, h7]
        · simp at hs
  | .bool true =>
      constructor
      · intro _
        exact Or.inl ⟨1, rfl, le_refl 1, by norm_num⟩
      · intro _
        decide
  | .bool false =>
      constructor
      · intro h
        simp [validate_power_zone, Value.pyInt?] at h
      · rintro (⟨m, hm, h1, h7⟩ | ⟨s, hs, _⟩)
        · simp only [Value.pyInt?, Option.some.injEq] at hm
          subst hm
          norm_num at h1
        · simp at hs
  | .str s =>
      constructor
      · intro h
        simp only [validate_power_zone, Value.pyInt?] at h
        split at h
        · next hm => exact Or.inr ⟨s, rfl, (pyZoneMatch_iff s.data).1 (by simpa using hm)⟩
        · simp at h
      · rintro (⟨m, hm, _, _⟩ | ⟨t, ht, hz⟩)
        · simp [Value.pyInt?] at hm
        · simp only [Value.str.injEq] at ht
          subst ht
          simp [validate_power_zone, Value.pyInt?, (pyZoneMatch_iff s.data).2 hz]
  | .null =>
      constructor
      · intro h
        simp [validate_power_zone, Value.pyInt?] at h
      · rintro (⟨m, hm, _, _⟩ | ⟨t, ht, _⟩)
        · simp [Value.pyInt?] at hm
        · simp at ht
  | .list xs =>
      constructor
      · intro h
        simp [validate_power_zone, Value.pyInt?] at h
      · rintro (⟨m, hm, _, _⟩ | ⟨t, ht, _⟩)
        · simp [Value.pyInt?] at hm
        · simp at ht
  | .obj fs =>
      constructor
      · intro h
        simp [validate_power_zone, Value.pyInt?] at h
      · rintro (⟨m, hm, _, _⟩ | ⟨t, ht, _⟩)
        · simp [Value.pyInt?] at hm
        · simp at ht

/-- C2 witness: the characterization instantiated at `"z 3+"`. -/
theorem c2_witness :
    (validate_power_zone (.str "z 3+")).1 = true ↔
    ((∃ n, (Value.str "z 3+").pyInt? = some n ∧ 1 ≤ n ∧ n ≤ 7) ∨
      (∃ s, Value.str "z 3+" = .str s ∧ ZoneStrOK s.data)) :=
  c2_theorem (.str "z 3+")
